import Mathlib

/-!
Verification of the hybrid-search core of the axiom8-mcp repository.

The TypeScript source is shallowly embedded: numbers are modelled by exact
arithmetic (vector components by rationals, scores by reals, so that the
square roots appearing in cosine similarity are meaningful), JavaScript
Map objects by insertion-ordered association lists with JS Map.set update
semantics, and JavaScript Array.prototype.sort by a stable merge sort with
the comparator of the source.  Remote calls (OpenAI embeddings, Cohere
rerank) and SQL rows are modelled by explicit outcome parameters and row
lists, mirroring the data each source function actually consumes.
-/

open scoped Classical

namespace Axiom8

/-- Embedded form of the SearchResult interface of search-types.ts.  The
optional metadata object is flattened into optional fields, which is how the
source accesses it (metadata?.ftsRank and so on). -/
structure SearchResult where
  nodeType : String
  displayName : String
  description : String
  category : String
  package : String
  relevanceScore : ℝ
  searchMethod : String
  ftsRank : Option ℕ := none
  vectorRank : Option ℕ := none
  vectorSimilarity : Option ℝ := none
  rrfScore : Option ℝ := none
  cohereScore : Option ℝ := none
  cohereRank : Option ℕ := none
  rerankQuery : Option String := none

/-- A concrete SearchResult used by instantiation theorems: an entity with
an identifier and a relevance score, every other field defaulted. -/
def sampleResult (nt : String) (score : ℝ) : SearchResult :=
  { nodeType := nt
    displayName := nt
    description := ""
    category := ""
    package := ""
    relevanceScore := score
    searchMethod := "fts5" }

/-- The JS falsy-after-trim test on a query string: true exactly when the
string contains no non-whitespace character.  (String.trim itself is
modelled only through this emptiness test, which is all the source uses
it for in guard positions.) -/
def isBlank (s : String) : Bool := s.toList.all (fun c => c.isWhitespace)

/-- Insertion-ordered association list standing for a JavaScript Map. -/
abbrev Assoc (α : Type) := List (String × α)

/-- JS Map.prototype.set: replace the value at an existing key in place,
otherwise append the new binding at the end. -/
def jsSet (m : Assoc α) (k : String) (v : α) : Assoc α :=
  if m.any (fun p => p.1 == k) then
    m.map (fun p => if p.1 == k then (k, v) else p)
  else m ++ [(k, v)]

/-- JS Map.prototype.get. -/
def jsGet (m : Assoc α) (k : String) : Option α :=
  (m.find? (fun p => p.1 == k)).map (fun p => p.2)

/-- The keys of the map, in insertion order. -/
def jsKeys (m : Assoc α) : List String := m.map (fun p => p.1)

namespace RRFFusion

/-- The first loop of rrf-fusion.ts createUnifiedDocumentSet: insert all
FTS5 results tagged fts5 with their 1-based rank. -/
def fts5DocumentSet (fts5Results : List SearchResult) : Assoc SearchResult :=
  fts5Results.enum.foldl
    (fun m p => jsSet m p.2.nodeType
      { p.2 with searchMethod := "fts5", ftsRank := some (p.1 + 1) }) []

/-- rrf-fusion.ts createUnifiedDocumentSet: after the FTS5 pass, merge the
vector results, turning an entity seen by both engines into a hybrid
entry. -/
def createUnifiedDocumentSet (fts5Results vectorResults : List SearchResult) :
    Assoc SearchResult :=
  let d1 := fts5DocumentSet fts5Results
  vectorResults.enum.foldl
    (fun m p => jsSet m p.2.nodeType
      (match jsGet m p.2.nodeType with
       | some existing =>
          { existing with
            searchMethod := "hybrid"
            vectorSimilarity := some p.2.relevanceScore
            vectorRank := some (p.1 + 1) }
       | none =>
          { p.2 with
            searchMethod := "vector"
            vectorSimilarity := some p.2.relevanceScore
            vectorRank := some (p.1 + 1) })) d1

/-- rrf-fusion.ts: the ranking maps built by forEach (index + 1). -/
def rankingMap (l : List SearchResult) : Assoc ℕ :=
  l.enum.foldl (fun m p => jsSet m p.2.nodeType (p.1 + 1)) []

/-- One weighted reciprocal-rank contribution, 0 when the entity is absent
from the source list. -/
noncomputable def rrfContribution (k w : ℝ) (rank : Option ℕ) : ℝ :=
  match rank with
  | some r => w * (1 / (k + r))
  | none => 0

/-- rrf-fusion.ts calculateRRFScores. -/
noncomputable def calculateRRFScores (documents : Assoc SearchResult)
    (k wfts wvec : ℝ) (fts5Results vectorResults : List SearchResult) :
    Assoc ℝ :=
  let fts5Rankings := rankingMap fts5Results
  let vectorRankings := rankingMap vectorResults
  documents.foldl
    (fun m p => jsSet m p.1
      (rrfContribution k wfts (jsGet fts5Rankings p.1) +
       rrfContribution k wvec (jsGet vectorRankings p.1))) []

/-- rrf-fusion.ts createFusedResults; rrfScores.get(nodeType) || 0 is the
getD 0 below (0 is falsy, so the || only ever substitutes 0 for a missing
or zero score, which getD 0 reproduces). -/
noncomputable def createFusedResults (documents : Assoc SearchResult)
    (rrfScores : Assoc ℝ) : List SearchResult :=
  documents.map (fun p =>
    let s := (jsGet rrfScores p.1).getD 0
    { p.2 with relevanceScore := s, rrfScore := some s })

/-- rrf-fusion.ts fuseResults: unify, score, then sort descending by RRF
score (the JS comparator (a, b) => b.relevanceScore - a.relevanceScore).
The catch branch of the source is unreachable here: every step is total. -/
noncomputable def fuseResults (k wfts wvec : ℝ)
    (fts5Results vectorResults : List SearchResult) : List SearchResult :=
  let allDocuments := createUnifiedDocumentSet fts5Results vectorResults
  let rrfScores := calculateRRFScores allDocuments k wfts wvec fts5Results vectorResults
  let fusedResults := createFusedResults allDocuments rrfScores
  fusedResults.mergeSort (fun a b => decide (b.relevanceScore ≤ a.relevanceScore))

/-- rrf-fusion.ts getOptimalK. -/
def getOptimalK (fts5Count vectorCount : ℕ) : ℕ :=
  let totalResults := fts5Count + vectorCount
  if totalResults < 10 then 30
  else if totalResults < 50 then 60
  else 90

end RRFFusion

/-- A row of the nodes table, restricted to the columns the search core
reads and writes.  The operations column is stored as JSON in SQLite; here
it is the already-parsed list of operation names. -/
structure NodeRow where
  node_type : String
  display_name : String
  description : String
  category : String
  package_name : String
  documentation : String
  operations : List String
  embedding_vector : Option (List ℚ) := none
  embedding_content_hash : Option String := none
  embedding_generated_at : Option ℤ := none
  embedding_model : Option String := none
  embedding_dimensions : Option ℕ := none
  updated_at : ℤ
deriving DecidableEq

/-- A row of the templates table, restricted likewise. -/
structure TemplateRow where
  id : ℕ
  workflow_id : ℕ
  name : String
  description : String
  categories : List String
  nodes_used : List String
  views : ℕ
  embedding_vector : Option (List ℚ) := none
  embedding_content_hash : Option String := none
  embedding_generated_at : Option ℤ := none
  embedding_model : Option String := none
  embedding_dimensions : Option ℕ := none
  updated_at : ℤ
deriving DecidableEq

/-- A concrete NodeRow used by instantiation theorems: identifier,
embedding columns and timestamps explicit, display fields defaulted. -/
def sampleNodeRow (nt : String) (v : Option (List ℚ)) (h : Option String)
    (g : Option ℤ) (u : ℤ) : NodeRow :=
  { node_type := nt
    display_name := nt
    description := ""
    category := ""
    package_name := ""
    documentation := ""
    operations := []
    embedding_vector := v
    embedding_content_hash := h
    embedding_generated_at := g
    embedding_model := none
    embedding_dimensions := none
    updated_at := u }

/-- search-types.ts VectorSearchOptions (the queryVector field is passed
separately in every call of the source, so it is omitted here).  A missing
threshold triggers the destructuring default of the repository. -/
structure VectorSearchOptions where
  limit : ℕ
  threshold : Option ℚ := none
  includeDistances : Bool := false

namespace VectorRepository

/-- vector-repository.ts calculateCosineSimilarity, for equal-length
vectors (on unequal lengths the source throws, and every caller catches
that throw and skips the candidate; the model guards the length at the call
sites).  The final isNaN check of the source maps a 0/0 to 0; the Lean
convention that division by zero is 0 yields the same value, so no explicit
branch is needed. -/
noncomputable def calculateCosineSimilarity (a b : List ℚ) : ℝ :=
  let dotProduct : ℚ := (List.zipWith (fun x y => x * y) a b).sum
  let normA : ℚ := (a.map (fun x => x * x)).sum
  let normB : ℚ := (b.map (fun x => x * x)).sum
  (dotProduct : ℝ) / (Real.sqrt (normA : ℝ) * Real.sqrt (normB : ℝ))

/-- vector-repository.ts findSimilarNodes: scan all rows having an
embedding, keep those with similarity at least the threshold (default 0.5
from the destructuring `threshold = 0.5`), sort descending, truncate to
limit, convert to SearchResult. -/
noncomputable def findSimilarNodes (db : List NodeRow) (queryVector : List ℚ)
    (options : VectorSearchOptions) : List SearchResult :=
  let threshold : ℚ := options.threshold.getD (1/2)
  let nodesWithEmbeddings := db.filterMap
    (fun r => (r.embedding_vector).map (fun v => (r, v)))
  let similarities := nodesWithEmbeddings.filterMap
    (fun p =>
      if p.2.length = queryVector.length then
        let similarity := calculateCosineSimilarity queryVector p.2
        if (threshold : ℝ) ≤ similarity then some (p.1, similarity) else none
      else none)
  let topResults :=
    (similarities.mergeSort (fun x y => decide (y.2 ≤ x.2))).take options.limit
  topResults.map (fun p =>
    { nodeType := p.1.node_type
      displayName := p.1.display_name
      description := p.1.description
      category := p.1.category
      package := p.1.package_name
      relevanceScore := p.2
      searchMethod := "vector"
      vectorSimilarity := if options.includeDistances then some p.2 else none })

/-- vector-repository.ts findSimilarTemplates (same algorithm over the
templates table; results are labelled template:id). -/
noncomputable def findSimilarTemplates (db : List TemplateRow)
    (queryVector : List ℚ) (options : VectorSearchOptions) : List SearchResult :=
  let threshold : ℚ := options.threshold.getD (1/2)
  let templatesWithEmbeddings := db.filterMap
    (fun r => (r.embedding_vector).map (fun v => (r, v)))
  let similarities := templatesWithEmbeddings.filterMap
    (fun p =>
      if p.2.length = queryVector.length then
        let similarity := calculateCosineSimilarity queryVector p.2
        if (threshold : ℝ) ≤ similarity then some (p.1, similarity) else none
      else none)
  let topResults :=
    (similarities.mergeSort (fun x y => decide (y.2 ≤ x.2))).take options.limit
  topResults.map (fun p =>
    { nodeType := "template:" ++ toString p.1.id
      displayName := p.1.name
      description := p.1.description
      category := "template"
      package := "n8n-templates"
      relevanceScore := p.2
      searchMethod := "vector"
      vectorSimilarity := if options.includeDistances then some p.2 else none })

/-- The WHERE clause of getNodesNeedingEmbeddings: embedding_vector IS NULL
OR embedding_content_hash IS NULL OR embedding_generated_at < updated_at
(SQL three-valued logic: a NULL generated_at makes the comparison unknown,
hence not selected by that disjunct). -/
def nodeNeedsEmbedding (r : NodeRow) : Bool :=
  r.embedding_vector.isNone || r.embedding_content_hash.isNone ||
    (match r.embedding_generated_at with
     | some g => decide (g < r.updated_at)
     | none => false)

/-- The projection returned by the needing-embeddings queries. -/
structure NodeEmbedCandidate where
  node_type : String
  display_name : String
  description : String
  category : String
  documentation : String
  operations : List String
  current_hash : Option String
deriving DecidableEq

/-- vector-repository.ts getNodesNeedingEmbeddings. -/
def getNodesNeedingEmbeddings (db : List NodeRow) : List NodeEmbedCandidate :=
  (db.filter nodeNeedsEmbedding).map (fun r =>
    { node_type := r.node_type
      display_name := r.display_name
      description := r.description
      category := r.category
      documentation := r.documentation
      operations := r.operations
      current_hash := r.embedding_content_hash })

/-- The WHERE clause of getTemplatesNeedingEmbeddings. -/
def templateNeedsEmbedding (r : TemplateRow) : Bool :=
  r.embedding_vector.isNone || r.embedding_content_hash.isNone ||
    (match r.embedding_generated_at with
     | some g => decide (g < r.updated_at)
     | none => false)

/-- The projection returned by getTemplatesNeedingEmbeddings. -/
structure TemplateEmbedCandidate where
  id : ℕ
  name : String
  description : String
  categories : List String
  current_hash : Option String
deriving DecidableEq

/-- vector-repository.ts getTemplatesNeedingEmbeddings. -/
def getTemplatesNeedingEmbeddings (db : List TemplateRow) :
    List TemplateEmbedCandidate :=
  (db.filter templateNeedsEmbedding).map (fun r =>
    { id := r.id
      name := r.name
      description := r.description
      categories := r.categories
      current_hash := r.embedding_content_hash })

/-- vector-repository.ts saveEmbedding: the UPDATE sets the five embedding
columns on every row whose node_type matches, with CURRENT_TIMESTAMP
modelled by the explicit parameter now. -/
def saveEmbedding (db : List NodeRow) (nodeType : String) (embedding : List ℚ)
    (contentHash : String) (now : ℤ) : List NodeRow :=
  db.map (fun r =>
    if r.node_type == nodeType then
      { r with
        embedding_vector := some embedding
        embedding_content_hash := some contentHash
        embedding_generated_at := some now
        embedding_model := some "text-embedding-3-small"
        embedding_dimensions := some embedding.length }
    else r)

/-- vector-repository.ts saveTemplateEmbedding. -/
def saveTemplateEmbedding (db : List TemplateRow) (templateId : ℕ)
    (embedding : List ℚ) (contentHash : String) (now : ℤ) : List TemplateRow :=
  db.map (fun r =>
    if r.id == templateId then
      { r with
        embedding_vector := some embedding
        embedding_content_hash := some contentHash
        embedding_generated_at := some now
        embedding_model := some "text-embedding-3-small"
        embedding_dimensions := some embedding.length }
    else r)

end VectorRepository

namespace EmbeddingService

/-- embedding-service.ts createBatches: consecutive slices of at most
batchSize texts.  The source loop diverges on batchSize = 0, but that value
is unreachable (the constructor replaces a falsy batch size by 100); the
model returns [] in that dead branch. -/
def createBatches (texts : List String) (batchSize : ℕ) : List (List String) :=
  if batchSize = 0 then []
  else if texts.isEmpty then []
  else texts.take batchSize :: createBatches (texts.drop batchSize) batchSize
termination_by texts.length
decreasing_by
  simp only [List.length_drop]
  cases texts with
  | nil => simp_all
  | cons a l => simp; omega

/-- One item of the embeddings response: the vector together with the index
the provider reports. -/
abbrev ResponseItem := List ℚ × ℕ

/-- embedding-service.ts processBatch, success path: re-sort the response
data by its index field (the JS comparator (a, b) => a.index - b.index) and
keep the vectors. -/
def processBatch (data : List ResponseItem) : List (List ℚ) :=
  (data.mergeSort (fun p q => decide (p.2 ≤ q.2))).map (fun p => p.1)

/-- embedding-service.ts generateEmbeddings: split into batches, process
them sequentially (the inter-batch delay has no effect on the value), and
concatenate the per-batch embeddings in order.  The provider is the
function respond from batch texts to response data. -/
def generateEmbeddings (respond : List String → List ResponseItem)
    (texts : List String) (batchSize : ℕ) : List (List ℚ) :=
  ((createBatches texts batchSize).map (fun b => processBatch (respond b))).flatten

/-- embedding-service.ts prepareEmbeddingContent, node branch: join the
non-blank searchable fields with a separator (operation names already
parsed from JSON). -/
def prepareNodeContent (displayName description category documentation : String)
    (operationNames : List String) : String :=
  let parts := ([displayName, description, category, documentation] ++
    operationNames).filter (fun s => ¬ (s.trim.length = 0))
  String.intercalate " | " parts

end EmbeddingService

namespace CohereReranker

/-- One entry of the Cohere rerank response: the index into the submitted
document list and the relevance score (relevanceScore ?? relevance_score
?? 0 already resolved). -/
structure RerankEntry where
  index : ℕ
  score : ℝ

/-- Reranker configuration (constructor defaults of cohere-reranker.ts). -/
structure RerankerConfig where
  maxDocuments : ℕ := 1000
  maxRetries : ℕ := 3

/-- cohere-reranker.ts processRerankResponse: an empty (or missing) results
array returns the submitted documents unchanged; otherwise each entry whose
index resolves to a submitted document yields that document with the Cohere
score, and entries with out-of-range indices are dropped. -/
noncomputable def processRerankResponse (results : List RerankEntry)
    (originalDocuments : List SearchResult) (query : String) : List SearchResult :=
  if results.isEmpty then originalDocuments
  else
    results.foldl
      (fun acc e =>
        match originalDocuments.get? e.index with
        | some d => acc ++
            [{ d with
               relevanceScore := e.score
               searchMethod := "hybrid"
               cohereScore := some e.score
               cohereRank := some (acc.length + 1)
               rerankQuery := some query }]
        | none => acc) []

/-- cohere-reranker.ts rerankWithRetries: attempts are numbered from 0; the
first attempt that resolves is processed, and when all maxRetries attempts
reject the call throws. -/
noncomputable def rerankWithRetries (cfg : RerankerConfig)
    (attempts : ℕ → Except String (List RerankEntry)) (query : String)
    (originalDocuments : List SearchResult) :
    Except String (List SearchResult) :=
  match (List.range cfg.maxRetries).findSome?
      (fun k => (attempts k).toOption) with
  | some results => .ok (processRerankResponse results originalDocuments query)
  | none => .error "Cohere reranking failed after retries"

/-- cohere-reranker.ts rerank: guard clauses return the input unchanged;
the candidate list sent to the provider is capped at maxDocuments and the
excess is appended untouched; any failure (client initialization or
exhausted retries) returns the original list. -/
noncomputable def rerank (cfg : RerankerConfig)
    (initOutcome : Except String Unit)
    (attempts : ℕ → Except String (List RerankEntry))
    (query : String) (documents : List SearchResult) : List SearchResult :=
  if documents.isEmpty || isBlank query then documents
  else
    let limitedDocuments := documents.take (min documents.length cfg.maxDocuments)
    match initOutcome with
    | .error _ => documents
    | .ok _ =>
      match rerankWithRetries cfg attempts query limitedDocuments with
      | .ok rerankedResults => rerankedResults ++ documents.drop cfg.maxDocuments
      | .error _ => documents

end CohereReranker

namespace HybridSearchEngine

/-- search-types.ts HybridSearchOptions, restricted to the fields the
pipeline reads (mergeOptions defaults). -/
structure HybridSearchOptions where
  limit : ℕ := 20
  enableReranking : Bool := true
  searchMethods : List String := ["fts5", "vector"]

/-- hybrid-search-engine.ts executeVectorSearch: unavailable storage or any
thrown error (embedding generation included) is caught and yields the empty
list; otherwise findSimilarNodes is called with the explicit threshold 0.2. -/
noncomputable def executeVectorSearch (ready : Bool)
    (embeddingOutcome : Except String (List ℚ)) (db : List NodeRow)
    (limit : ℕ) : List SearchResult :=
  if ¬ ready then []
  else
    match embeddingOutcome with
    | .error _ => []
    | .ok queryVector =>
        VectorRepository.findSimilarNodes db queryVector
          { limit := limit, threshold := some (1/5), includeDistances := true }

/-- hybrid-search-engine.ts executeSearchPipeline.  The FTS5 stage is an
external collaborator (SQLite); its ranked list is an input.  Stage 2 fuses
only when both lists are non-empty, stage 3 reranks only when enabled and
the reranker reports itself available, and the final list is truncated to
the limit. -/
noncomputable def executeSearchPipeline (options : HybridSearchOptions)
    (fts5Available : List SearchResult) (ready : Bool)
    (embeddingOutcome : Except String (List ℚ)) (db : List NodeRow)
    (k wfts wvec : ℝ) (rerankAvailable : Bool)
    (cfg : CohereReranker.RerankerConfig)
    (initOutcome : Except String Unit)
    (attempts : ℕ → Except String (List CohereReranker.RerankEntry))
    (query : String) : List SearchResult :=
  let pfts := options.searchMethods.contains "fts5"
  let pvec := options.searchMethods.contains "vector"
  let fts5Results := if pfts then fts5Available else []
  let vectorResults :=
    if pvec then executeVectorSearch ready embeddingOutcome db (options.limit * 2)
    else []
  let prrf := decide (1 < options.searchMethods.length)
  let fusedResults :=
    if prrf && !fts5Results.isEmpty && !vectorResults.isEmpty then
      RRFFusion.fuseResults k wfts wvec fts5Results vectorResults
    else if !fts5Results.isEmpty && vectorResults.isEmpty then fts5Results
    else if !vectorResults.isEmpty && fts5Results.isEmpty then vectorResults
    else fts5Results ++ vectorResults
  let finalResults :=
    if options.enableReranking && !fusedResults.isEmpty && rerankAvailable then
      CohereReranker.rerank cfg initOutcome attempts query fusedResults
    else fusedResults
  finalResults.take options.limit

/-- hybrid-search-engine.ts search, with the cache disabled (caching is a
performance layer; a hit replays a previous value of this same function).
The Except codomain mirrors the re-throw in the catch of the source; no
stage of the embedded pipeline throws, so the error branch is unreachable. -/
noncomputable def search (query : String) (options : HybridSearchOptions)
    (fts5Available : List SearchResult) (ready : Bool)
    (embeddingOutcome : Except String (List ℚ)) (db : List NodeRow)
    (k wfts wvec : ℝ) (rerankAvailable : Bool)
    (cfg : CohereReranker.RerankerConfig)
    (initOutcome : Except String Unit)
    (attempts : ℕ → Except String (List CohereReranker.RerankEntry)) :
    Except String (List SearchResult) :=
  if isBlank query then .ok []
  else .ok (executeSearchPipeline options fts5Available ready embeddingOutcome
    db k wfts wvec rerankAvailable cfg initOutcome attempts query)

end HybridSearchEngine

/-- The ordering invariant of the specification: relevanceScore is
monotonically non-increasing from the first to the last element. -/
def scoresNonIncreasing (l : List SearchResult) : Prop :=
  l.Pairwise (fun a b => b.relevanceScore ≤ a.relevanceScore)

/-! ### Lemmas about the JS Map model -/

theorem jsSet_of_not_found (m : Assoc α) (k : String) (v : α)
    (h : m.any (fun p => p.1 == k) = false) : jsSet m k v = m ++ [(k, v)] := by
  simp [jsSet, h]

theorem jsSet_cons_ne (p : String × α) (t : Assoc α) (k : String) (v : α)
    (h : ¬ p.1 = k) : jsSet (p :: t) k v = p :: jsSet t k v := by
  have hb : (p.1 == k) = false := by simp [h]
  by_cases ht : t.any (fun q => q.1 == k) = true
  · simp [jsSet, hb, ht, h]
  · simp at ht
    simp [jsSet, hb, ht, h]

theorem jsGet_nil (k : String) : jsGet ([] : Assoc α) k = none := by
  simp [jsGet]

theorem jsGet_cons (p : String × α) (t : Assoc α) (k : String) :
    jsGet (p :: t) k = if p.1 = k then some p.2 else jsGet t k := by
  by_cases h : p.1 = k <;> simp [jsGet, List.find?_cons, h]

theorem jsKeys_map_replace (m : Assoc α) (k : String) (v : α) :
    jsKeys (m.map (fun q => if q.1 == k then (k, v) else q)) = jsKeys m := by
  unfold jsKeys
  rw [List.map_map]
  refine List.map_congr_left (fun p hp => ?_)
  by_cases hpk : p.1 = k
  · simp [Function.comp, hpk]
  · simp [Function.comp, hpk]

theorem jsGet_map_replace (t : Assoc α) (k a : String) (v : α) (h : ¬ a = k) :
    jsGet (t.map (fun q => if q.1 == k then (k, v) else q)) a = jsGet t a := by
  induction t with
  | nil => simp
  | cons q s ih =>
    by_cases hq : q.1 = k
    · have hqb : (q.1 == k) = true := by simp [hq]
      simp only [List.map_cons, hqb, if_true]
      rw [jsGet_cons, jsGet_cons]
      rw [if_neg (fun hh : k = a => h hh.symm), if_neg (fun hh : q.1 = a => h (hh ▸ hq ▸ rfl))]
      · exact ih
    · have hqb : (q.1 == k) = false := by simp [hq]
      simp only [List.map_cons, hqb, if_false, Bool.false_eq_true]
      rw [jsGet_cons, jsGet_cons]
      by_cases hqa : q.1 = a
      · simp [hqa]
      · rw [if_neg hqa, if_neg hqa]
        exact ih

theorem jsGet_append_single (m : Assoc α) (k a : String) (v : α) (h : ¬ a = k) :
    jsGet (m ++ [(k, v)]) a = jsGet m a := by
  unfold jsGet
  rw [List.find?_append]
  have hb : ((k, v).1 == a) = false := by
    simp only [beq_eq_false_iff_ne, ne_eq]
    exact fun hh => h hh.symm
  have : List.find? (fun p => p.1 == a) [(k, v)] = none := by
    rw [List.find?_cons, hb]
    rfl
  rw [this, Option.or_none]

theorem jsGet_map_replace_self (t : Assoc α) (k : String) (v : α)
    (hmem : ∃ p ∈ t, p.1 = k) :
    jsGet (t.map (fun q => if q.1 == k then (k, v) else q)) k = some v := by
  induction t with
  | nil =>
    rcases hmem with ⟨p, hp, _⟩
    cases hp
  | cons q s ih =>
    by_cases hq : q.1 = k
    · have hqb : (q.1 == k) = true := by simp [hq]
      rw [List.map_cons, if_pos hqb, jsGet_cons]
      simp
    · have hqb : ¬ ((q.1 == k) = true) := by simp [hq]
      rw [List.map_cons, if_neg hqb, jsGet_cons, if_neg hq]
      apply ih
      rcases hmem with ⟨p, hp, hpk⟩
      rcases List.mem_cons.1 hp with h1 | h1
      · exact absurd (h1 ▸ hpk) hq
      · exact ⟨p, h1, hpk⟩

theorem jsGet_jsSet_self (m : Assoc α) (k : String) (v : α) :
    jsGet (jsSet m k v) k = some v := by
  unfold jsSet
  by_cases hm : m.any (fun p => p.1 == k) = true
  · rw [if_pos hm]
    rcases List.any_eq_true.1 hm with ⟨p, hp, hpk⟩
    exact jsGet_map_replace_self m k v ⟨p, hp, by simpa using hpk⟩
  · rw [if_neg hm]
    have hall : ∀ p ∈ m, ¬ p.1 = k := by
      intro p hp he
      exact hm (List.any_eq_true.2 ⟨p, hp, by simp [he]⟩)
    unfold jsGet
    rw [List.find?_append]
    have h1 : List.find? (fun p => p.1 == k) m = none := by
      rw [List.find?_eq_none]
      intro p hp
      simpa using hall p hp
    rw [h1]
    have hb : ((k, v).1 == k) = true := by simp
    rw [List.find?_cons, hb]
    rfl

theorem jsGet_jsSet_ne (m : Assoc α) (k a : String) (v : α) (h : ¬ a = k) :
    jsGet (jsSet m k v) a = jsGet m a := by
  unfold jsSet
  by_cases hm : m.any (fun p => p.1 == k) = true
  · rw [if_pos hm]
    exact jsGet_map_replace m k a v h
  · rw [if_neg hm]
    exact jsGet_append_single m k a v h

theorem jsKeys_jsSet (m : Assoc α) (k : String) (v : α) (a : String) :
    a ∈ jsKeys (jsSet m k v) ↔ a ∈ jsKeys m ∨ a = k := by
  unfold jsSet
  by_cases hm : m.any (fun p => p.1 == k) = true
  · rw [if_pos hm, jsKeys_map_replace]
    constructor
    · exact Or.inl
    · rintro (ha | rfl)
      · exact ha
      · rcases List.any_eq_true.1 hm with ⟨p, hp, hpk⟩
        simp only [beq_iff_eq] at hpk
        exact hpk ▸ List.mem_map.2 ⟨p, hp, rfl⟩
  · rw [if_neg hm]
    unfold jsKeys
    rw [List.map_append]
    simp

theorem jsKeys_nodup_jsSet (m : Assoc α) (k : String) (v : α)
    (h : (jsKeys m).Nodup) : (jsKeys (jsSet m k v)).Nodup := by
  unfold jsSet
  by_cases hm : m.any (fun p => p.1 == k) = true
  · rw [if_pos hm, jsKeys_map_replace]
    exact h
  · rw [if_neg hm]
    unfold jsKeys
    rw [List.map_append]
    refine List.Nodup.append h (by simp) ?_
    intro a ha hb
    simp only [List.map_cons, List.map_nil, List.mem_singleton] at hb
    subst hb
    rcases List.mem_map.1 ha with ⟨p, hp, hpe⟩
    exact hm (List.any_eq_true.2 ⟨p, hp, by simp [hpe]⟩)

theorem jsGet_eq_some_mem (m : Assoc α) (k : String) (v : α)
    (h : jsGet m k = some v) : (k, v) ∈ m := by
  unfold jsGet at h
  rcases Option.map_eq_some'.1 h with ⟨p, hp, hpe⟩
  have hmem := List.mem_of_find?_eq_some hp
  have hkey := List.find?_some hp
  simp only [beq_iff_eq] at hkey
  have : p = (k, v) := by
    cases p
    simp_all
  exact this ▸ hmem

theorem jsGet_isSome_iff (m : Assoc α) (k : String) :
    (jsGet m k).isSome = true ↔ k ∈ jsKeys m := by
  unfold jsGet jsKeys
  rw [Option.isSome_map', List.find?_isSome]
  constructor
  · rintro ⟨p, hp, hpk⟩
    simp only [beq_iff_eq] at hpk
    exact hpk ▸ List.mem_map.2 ⟨p, hp, rfl⟩
  · intro hk
    rcases List.mem_map.1 hk with ⟨p, hp, hpe⟩
    exact ⟨p, hp, by simp [hpe]⟩

theorem jsGet_eq_none_iff (m : Assoc α) (k : String) :
    jsGet m k = none ↔ ¬ k ∈ jsKeys m := by
  rw [← jsGet_isSome_iff]
  cases jsGet m k <;> simp

theorem jsGet_of_mem_nodup (m : Assoc α) (k : String) (v : α)
    (hnd : (jsKeys m).Nodup) (h : (k, v) ∈ m) : jsGet m k = some v := by
  induction m with
  | nil => cases h
  | cons p t ih =>
    rw [jsGet_cons]
    rcases List.mem_cons.1 h with h1 | h1
    · simp [← h1]
    · have hk : k ∈ jsKeys t := List.mem_map.2 ⟨(k, v), h1, rfl⟩
      have hnd1 : (p.1 :: jsKeys t).Nodup := hnd
      have hnd2 := List.nodup_cons.1 hnd1
      have hp1 : ¬ p.1 = k := fun he => hnd2.1 (he ▸ hk)
      rw [if_neg hp1]
      exact ih hnd2.2 h1

/-! ### Generic lemmas about folds of JS Map insertions -/

theorem forall_jsSet {P : String × α → Prop} (m : Assoc α) (k : String) (v : α)
    (hm : ∀ p ∈ m, P p) (hv : P (k, v)) : ∀ p ∈ jsSet m k v, P p := by
  unfold jsSet
  by_cases hc : m.any (fun p => p.1 == k) = true
  · rw [if_pos hc]
    intro p hp
    rcases List.mem_map.1 hp with ⟨q, hq, hqe⟩
    by_cases hqk : q.1 = k
    · have : (q.1 == k) = true := by simp [hqk]
      rw [← hqe, if_pos this]
      exact hv
    · have : ¬ ((q.1 == k) = true) := by simp [hqk]
      rw [← hqe, if_neg this]
      exact hm q hq
  · rw [if_neg hc]
    intro p hp
    rcases List.mem_append.1 hp with h1 | h1
    · exact hm p h1
    · rw [List.mem_singleton.1 h1]
      exact hv

theorem jsGet_genFold_not_mem {γ : Type} (key : γ → String)
    (val : Assoc α → γ → α) (l : List γ) (init : Assoc α) (e : String)
    (h : ¬ e ∈ l.map key) :
    jsGet (l.foldl (fun m x => jsSet m (key x) (val m x)) init) e = jsGet init e := by
  induction l generalizing init with
  | nil => rfl
  | cons x t ih =>
    simp only [List.map_cons, List.mem_cons, not_or] at h
    rw [List.foldl_cons, ih _ h.2]
    exact jsGet_jsSet_ne init (key x) e (val init x) h.1

theorem mem_jsKeys_genFold {γ : Type} (key : γ → String)
    (val : Assoc α → γ → α) (l : List γ) (init : Assoc α) (e : String) :
    e ∈ jsKeys (l.foldl (fun m x => jsSet m (key x) (val m x)) init) ↔
      e ∈ l.map key ∨ e ∈ jsKeys init := by
  induction l generalizing init with
  | nil => simp
  | cons x t ih =>
    rw [List.foldl_cons, ih, jsKeys_jsSet]
    simp only [List.map_cons, List.mem_cons]
    tauto

theorem jsKeys_nodup_genFold {γ : Type} (key : γ → String)
    (val : Assoc α → γ → α) (l : List γ) (init : Assoc α)
    (h : (jsKeys init).Nodup) :
    (jsKeys (l.foldl (fun m x => jsSet m (key x) (val m x)) init)).Nodup := by
  induction l generalizing init with
  | nil => exact h
  | cons x t ih =>
    rw [List.foldl_cons]
    exact ih _ (jsKeys_nodup_jsSet init (key x) (val init x) h)

theorem forall_genFold {γ : Type} (P : String × α → Prop) (key : γ → String)
    (val : Assoc α → γ → α) (l : List γ) (init : Assoc α)
    (hinit : ∀ p ∈ init, P p)
    (hstep : ∀ (m : Assoc α) (x : γ), x ∈ l → (∀ p ∈ m, P p) → P (key x, val m x)) :
    ∀ p ∈ l.foldl (fun m x => jsSet m (key x) (val m x)) init, P p := by
  induction l generalizing init with
  | nil => exact hinit
  | cons x t ih =>
    rw [List.foldl_cons]
    refine ih _ ?_ ?_
    · exact forall_jsSet init (key x) (val init x) hinit
        (hstep init x (List.mem_cons_self x t) hinit)
    · intro m y hy hm
      exact hstep m y (List.mem_cons_of_mem x hy) hm

theorem jsGet_genFold_spec {γ : Type} (key : γ → String)
    (val : Assoc α → γ → α) (Q : Option α → α → Prop) (l : List γ)
    (init : Assoc α) (e : String)
    (hnd : (l.map key).Nodup) (he : e ∈ l.map key)
    (hval : ∀ (m : Assoc α) (x : γ), x ∈ l → key x = e →
      jsGet m e = jsGet init e → Q (jsGet init e) (val m x)) :
    ∃ d, jsGet (l.foldl (fun m y => jsSet m (key y) (val m y)) init) e = some d ∧
      Q (jsGet init e) d := by
  induction l generalizing init with
  | nil => cases he
  | cons x t ih =>
    simp only [List.map_cons, List.mem_cons] at he
    have hnd2 := List.nodup_cons.1 hnd
    rw [List.foldl_cons]
    by_cases hx : key x = e
    · have hne : ¬ e ∈ t.map key := by
        rw [← hx]
        exact hnd2.1
      rw [jsGet_genFold_not_mem key val t _ e hne, hx, jsGet_jsSet_self]
      exact ⟨val init x, rfl, hval init x (List.mem_cons_self x t) hx rfl⟩
    · have he2 : e ∈ t.map key := by
        rcases he with h1 | h1
        · exact absurd h1.symm hx
        · exact h1
      have hgeq : jsGet (jsSet init (key x) (val init x)) e = jsGet init e :=
        jsGet_jsSet_ne init (key x) e (val init x) (fun hh => hx hh.symm)
      rcases ih (jsSet init (key x) (val init x)) hnd2.2 he2
          (fun m y hy hky hgm => by
            rw [hgeq]
            exact hval m y (List.mem_cons_of_mem x hy) hky (by rw [hgm, hgeq])) with
        ⟨d, hd, hq⟩
      exact ⟨d, hd, by rwa [hgeq] at hq⟩

theorem enum_fst_eq_indexOf {β : Type} (f : β → String) (l : List β)
    (e : String) (hnd : (l.map f).Nodup) (p : ℕ × β) (hp : p ∈ l.enum)
    (he : f p.2 = e) : p.1 = (l.map f).indexOf e := by
  rcases List.mem_iff_getElem.1 hp with ⟨j, hj, hje⟩
  have hlen : j < l.length := by
    simpa using hj
  have hlenm : j < (l.map f).length := by
    simpa using hlen
  have h2 : (l.enum)[j] = (0 + j, l[j]) := List.getElem_enumFrom l 0 j hj
  have hp2 : p = (0 + j, l[j]) := hje.symm.trans h2
  have hfst : p.1 = j := by simp [hp2]
  have hsnd : p.2 = l[j] := by simp [hp2]
  have hmap : (l.map f)[j] = e := by
    rw [List.getElem_map, ← hsnd]
    exact he
  have hidx := List.indexOf_getElem hnd j hlenm
  rw [hmap] at hidx
  rw [hfst, ← hidx]

theorem enum_map_key {β : Type} (f : β → String) (l : List β) :
    (l.enum).map (fun p => f p.2) = l.map f := by
  have : (fun p : ℕ × β => f p.2) = f ∘ Prod.snd := rfl
  rw [this, ← List.map_map, List.enum_eq_enumFrom, List.enumFrom_map_snd]

/-! ### Characterisation of the RRF fusion data structures -/

theorem fts5DocumentSet_invariant (fts : List SearchResult) :
    ∀ p ∈ RRFFusion.fts5DocumentSet fts,
      p.2.nodeType = p.1 ∧ p.2.searchMethod = "fts5" := by
  unfold RRFFusion.fts5DocumentSet
  exact forall_genFold
    (fun p => p.2.nodeType = p.1 ∧ p.2.searchMethod = "fts5")
    (fun q : ℕ × SearchResult => q.2.nodeType)
    (fun m q => { q.2 with searchMethod := "fts5", ftsRank := some (q.1 + 1) })
    fts.enum [] (by simp) (fun m x hx hm => ⟨rfl, rfl⟩)

theorem mem_jsKeys_fts5DocumentSet (fts : List SearchResult) (e : String) :
    e ∈ jsKeys (RRFFusion.fts5DocumentSet fts) ↔
      e ∈ fts.map SearchResult.nodeType := by
  have h := mem_jsKeys_genFold (fun q : ℕ × SearchResult => q.2.nodeType)
    (fun m q => { q.2 with searchMethod := "fts5", ftsRank := some (q.1 + 1) })
    fts.enum [] e
  rw [enum_map_key] at h
  unfold RRFFusion.fts5DocumentSet
  simpa [jsKeys] using h

theorem mem_jsKeys_unified (fts vec : List SearchResult) (e : String) :
    e ∈ jsKeys (RRFFusion.createUnifiedDocumentSet fts vec) ↔
      e ∈ fts.map SearchResult.nodeType ∨ e ∈ vec.map SearchResult.nodeType := by
  have h := mem_jsKeys_genFold (fun q : ℕ × SearchResult => q.2.nodeType)
    (fun m q =>
      (match jsGet m q.2.nodeType with
       | some existing =>
          { existing with
            searchMethod := "hybrid"
            vectorSimilarity := some q.2.relevanceScore
            vectorRank := some (q.1 + 1) }
       | none =>
          { q.2 with
            searchMethod := "vector"
            vectorSimilarity := some q.2.relevanceScore
            vectorRank := some (q.1 + 1) }))
    vec.enum (RRFFusion.fts5DocumentSet fts) e
  rw [enum_map_key, mem_jsKeys_fts5DocumentSet] at h
  unfold RRFFusion.createUnifiedDocumentSet
  refine h.trans ?_
  tauto

theorem unified_invariant (fts vec : List SearchResult) :
    ∀ p ∈ RRFFusion.createUnifiedDocumentSet fts vec, p.2.nodeType = p.1 := by
  unfold RRFFusion.createUnifiedDocumentSet
  refine forall_genFold (fun p => p.2.nodeType = p.1)
    (fun q : ℕ × SearchResult => q.2.nodeType) _ vec.enum
    (RRFFusion.fts5DocumentSet fts)
    (fun p hp => (fts5DocumentSet_invariant fts p hp).1) ?_
  intro m x hx hm
  cases hg : jsGet m x.2.nodeType with
  | none => simp only [hg]
  | some existing =>
    simp only [hg]
    exact hm (x.2.nodeType, existing) (jsGet_eq_some_mem m x.2.nodeType existing hg)

theorem jsKeys_unified_nodup (fts vec : List SearchResult) :
    (jsKeys (RRFFusion.createUnifiedDocumentSet fts vec)).Nodup := by
  unfold RRFFusion.createUnifiedDocumentSet RRFFusion.fts5DocumentSet
  exact jsKeys_nodup_genFold _ _ vec.enum _
    (jsKeys_nodup_genFold _ _ fts.enum [] (by simp [jsKeys]))

theorem jsGet_rankingMap (l : List SearchResult) (e : String)
    (hnd : (l.map SearchResult.nodeType).Nodup) :
    jsGet (RRFFusion.rankingMap l) e =
      if e ∈ l.map SearchResult.nodeType
      then some ((l.map SearchResult.nodeType).indexOf e + 1)
      else none := by
  unfold RRFFusion.rankingMap
  by_cases he : e ∈ l.map SearchResult.nodeType
  · rw [if_pos he]
    have hnd2 : (l.enum.map (fun q : ℕ × SearchResult => q.2.nodeType)).Nodup := by
      rw [enum_map_key]
      exact hnd
    have he2 : e ∈ l.enum.map (fun q : ℕ × SearchResult => q.2.nodeType) := by
      rw [enum_map_key]
      exact he
    rcases jsGet_genFold_spec (fun q : ℕ × SearchResult => q.2.nodeType)
        (fun m q => q.1 + 1)
        (fun o n => n = (l.map SearchResult.nodeType).indexOf e + 1)
        l.enum [] e hnd2 he2
        (fun m x hx hkx hgm => by
          show x.1 + 1 = (l.map SearchResult.nodeType).indexOf e + 1
          rw [enum_fst_eq_indexOf SearchResult.nodeType l e hnd x hx hkx]) with
      ⟨n, hn, hq⟩
    rw [hn, hq]
  · rw [if_neg he]
    have he2 : ¬ e ∈ l.enum.map (fun q : ℕ × SearchResult => q.2.nodeType) := by
      rw [enum_map_key]
      exact he
    rw [jsGet_genFold_not_mem (fun q : ℕ × SearchResult => q.2.nodeType)
      (fun m q => q.1 + 1) l.enum [] e he2]
    rfl

theorem jsGet_calculateRRFScores (documents : Assoc SearchResult)
    (k wfts wvec : ℝ) (fts vec : List SearchResult) (e : String)
    (hnd : (jsKeys documents).Nodup) (he : e ∈ jsKeys documents) :
    jsGet (RRFFusion.calculateRRFScores documents k wfts wvec fts vec) e =
      some (RRFFusion.rrfContribution k wfts (jsGet (RRFFusion.rankingMap fts) e) +
        RRFFusion.rrfContribution k wvec (jsGet (RRFFusion.rankingMap vec) e)) := by
  unfold RRFFusion.calculateRRFScores
  have hnd2 : (documents.map (fun p : String × SearchResult => p.1)).Nodup := hnd
  have he2 : e ∈ documents.map (fun p : String × SearchResult => p.1) := he
  rcases jsGet_genFold_spec (fun p : String × SearchResult => p.1)
      (fun m p =>
        RRFFusion.rrfContribution k wfts (jsGet (RRFFusion.rankingMap fts) p.1) +
        RRFFusion.rrfContribution k wvec (jsGet (RRFFusion.rankingMap vec) p.1))
      (fun o r => r =
        RRFFusion.rrfContribution k wfts (jsGet (RRFFusion.rankingMap fts) e) +
        RRFFusion.rrfContribution k wvec (jsGet (RRFFusion.rankingMap vec) e))
      documents [] e hnd2 he2
      (fun m x hx hkx hgm => by
        have hkx2 : x.1 = e := hkx
        show RRFFusion.rrfContribution k wfts (jsGet (RRFFusion.rankingMap fts) x.1) +
          RRFFusion.rrfContribution k wvec (jsGet (RRFFusion.rankingMap vec) x.1) = _
        rw [hkx2]) with ⟨r, hr, hq⟩
  rw [hr, hq]

theorem unified_searchMethod (fts vec : List SearchResult)
    (hv : (vec.map SearchResult.nodeType).Nodup) :
    ∀ p ∈ RRFFusion.createUnifiedDocumentSet fts vec,
      p.2.searchMethod =
        if p.1 ∈ fts.map SearchResult.nodeType then
          (if p.1 ∈ vec.map SearchResult.nodeType then "hybrid" else "fts5")
        else "vector" := by
  intro p hp
  have hkeysN := jsKeys_unified_nodup fts vec
  have hget : jsGet (RRFFusion.createUnifiedDocumentSet fts vec) p.1 = some p.2 :=
    jsGet_of_mem_nodup _ _ _ hkeysN hp
  by_cases hvK : p.1 ∈ vec.map SearchResult.nodeType
  · have hnd2 : (vec.enum.map (fun q : ℕ × SearchResult => q.2.nodeType)).Nodup := by
      rw [enum_map_key]
      exact hv
    have he2 : p.1 ∈ vec.enum.map (fun q : ℕ × SearchResult => q.2.nodeType) := by
      rw [enum_map_key]
      exact hvK
    have hspec := jsGet_genFold_spec (fun q : ℕ × SearchResult => q.2.nodeType)
      (fun m q =>
        (match jsGet m q.2.nodeType with
         | some existing =>
            { existing with
              searchMethod := "hybrid"
              vectorSimilarity := some q.2.relevanceScore
              vectorRank := some (q.1 + 1) }
         | none =>
            { q.2 with
              searchMethod := "vector"
              vectorSimilarity := some q.2.relevanceScore
              vectorRank := some (q.1 + 1) }))
      (fun o d => d.searchMethod = if o.isSome then "hybrid" else "vector")
      vec.enum (RRFFusion.fts5DocumentSet fts) p.1 hnd2 he2 ?_
    · rcases hspec with ⟨d, hd, hq⟩
      have hsome : (some p.2 : Option SearchResult) = some d := by
        rw [← hd]
        exact hget.symm
      have hpd : p.2 = d := by
        injection hsome
      rw [hpd, hq]
      by_cases hfK : p.1 ∈ fts.map SearchResult.nodeType
      · have hs : (jsGet (RRFFusion.fts5DocumentSet fts) p.1).isSome = true :=
          (jsGet_isSome_iff _ _).2 ((mem_jsKeys_fts5DocumentSet fts p.1).2 hfK)
        rw [hs, if_pos hfK, if_pos hvK]
        rfl
      · have hn : jsGet (RRFFusion.fts5DocumentSet fts) p.1 = none := by
          rw [jsGet_eq_none_iff]
          intro hk
          exact hfK ((mem_jsKeys_fts5DocumentSet fts p.1).1 hk)
        rw [hn, if_neg hfK]
        rfl
    · intro m x hx hkx hgm
      have hkx2 : x.2.nodeType = p.1 := hkx
      show (match jsGet m x.2.nodeType with
         | some existing =>
            { existing with
              searchMethod := "hybrid"
              vectorSimilarity := some x.2.relevanceScore
              vectorRank := some (x.1 + 1) }
         | none =>
            { x.2 with
              searchMethod := "vector"
              vectorSimilarity := some x.2.relevanceScore
              vectorRank := some (x.1 + 1) }).searchMethod =
        if (jsGet (RRFFusion.fts5DocumentSet fts) p.1).isSome then "hybrid"
        else "vector"
      rw [hkx2, hgm]
      cases ho : jsGet (RRFFusion.fts5DocumentSet fts) p.1 with
      | none => rfl
      | some existing => rfl
  · have he2 : ¬ p.1 ∈ vec.enum.map (fun q : ℕ × SearchResult => q.2.nodeType) := by
      rw [enum_map_key]
      exact hvK
    have hget2 : jsGet (RRFFusion.fts5DocumentSet fts) p.1 = some p.2 := by
      rw [← jsGet_genFold_not_mem (fun q : ℕ × SearchResult => q.2.nodeType)
        (fun m q =>
          (match jsGet m q.2.nodeType with
           | some existing =>
              { existing with
                searchMethod := "hybrid"
                vectorSimilarity := some q.2.relevanceScore
                vectorRank := some (q.1 + 1) }
           | none =>
              { q.2 with
                searchMethod := "vector"
                vectorSimilarity := some q.2.relevanceScore
                vectorRank := some (q.1 + 1) }))
        vec.enum (RRFFusion.fts5DocumentSet fts) p.1 he2]
      exact hget
    have hmem1 : (p.1, p.2) ∈ RRFFusion.fts5DocumentSet fts :=
      jsGet_eq_some_mem _ _ _ hget2
    have hfK : p.1 ∈ fts.map SearchResult.nodeType :=
      (mem_jsKeys_fts5DocumentSet fts p.1).1
        ((jsGet_isSome_iff _ _).1 (by rw [hget2]; rfl))
    rw [if_pos hfK, if_neg hvK]
    exact (fts5DocumentSet_invariant fts (p.1, p.2) hmem1).2

/-! ### Sorting helper -/

theorem pairwise_ge_mergeSort {β : Type} (f : β → ℝ) (l : List β) :
    (l.mergeSort (fun x y => decide (f y ≤ f x))).Pairwise (fun x y => f y ≤ f x) := by
  refine List.Pairwise.imp ?_ (List.sorted_mergeSort ?_ ?_ l)
  · intro a b h
    exact of_decide_eq_true h
  · intro a b c hab hbc
    simp only [decide_eq_true_eq] at hab hbc ⊢
    exact le_trans hbc hab
  · intro a b
    rcases le_total (f b) (f a) with h | h
    · simp [h]
    · simp [h]

/-! ### Claims -/

/-- C9 counterexample: at a combined result count of exactly 50 the claim
predicts 60, but getOptimalK returns 90 (the 60 branch is guarded by a
strict totalResults < 50). -/
theorem claim9_counterexample :
    RRFFusion.getOptimalK 25 25 = 90 ∧ ¬ RRFFusion.getOptimalK 25 25 = 60 := by
  constructor
  · rfl
  · intro h
    simp [RRFFusion.getOptimalK] at h

/-- C9 (amended): getOptimalK returns 30 when the combined count is below
10, 60 when it is at least 10 and below 50, and 90 when it is 50 or more
(in particular 90, not 60, at exactly 50). -/
theorem claim9_getOptimalK (a b : ℕ) :
    (a + b < 10 → RRFFusion.getOptimalK a b = 30) ∧
    (10 ≤ a + b ∧ a + b < 50 → RRFFusion.getOptimalK a b = 60) ∧
    (50 ≤ a + b → RRFFusion.getOptimalK a b = 90) := by
  unfold RRFFusion.getOptimalK
  refine ⟨fun h => ?_, fun h => ?_, fun h => ?_⟩
  · rw [if_pos h]
  · rw [if_neg (by omega), if_pos h.2]
  · rw [if_neg (by omega), if_neg (by omega)]

/-- C9 witness: the amended theorem applied at concrete counts. -/
theorem claim9_getOptimalK_witness :
    (10 ≤ 5 + 5 ∧ 5 + 5 < 50) ∧ RRFFusion.getOptimalK 5 5 = 60 :=
  ⟨⟨by decide, by decide⟩, (claim9_getOptimalK 5 5).2.1 ⟨by decide, by decide⟩⟩

/-- C1: for ranked lists without duplicated identifiers, every entity of
the union appears in the fused list with relevance score equal to the sum
of the weighted reciprocal-rank terms of the sources containing it, the
rank being its 1-based position in that source list. -/
theorem claim1_rrf_fused_scores (k wfts wvec : ℝ) (fts vec : List SearchResult)
    (hf : (fts.map SearchResult.nodeType).Nodup)
    (hv : (vec.map SearchResult.nodeType).Nodup)
    (e : String)
    (he : e ∈ fts.map SearchResult.nodeType ∨ e ∈ vec.map SearchResult.nodeType) :
    ∃ r ∈ RRFFusion.fuseResults k wfts wvec fts vec, r.nodeType = e ∧
      r.relevanceScore =
        (if e ∈ fts.map SearchResult.nodeType
          then wfts * (1 / (k + (((fts.map SearchResult.nodeType).indexOf e + 1 : ℕ) : ℝ)))
          else 0) +
        (if e ∈ vec.map SearchResult.nodeType
          then wvec * (1 / (k + (((vec.map SearchResult.nodeType).indexOf e + 1 : ℕ) : ℝ)))
          else 0) := by
  have hkey : e ∈ jsKeys (RRFFusion.createUnifiedDocumentSet fts vec) :=
    (mem_jsKeys_unified fts vec e).2 he
  have hsome := (jsGet_isSome_iff (RRFFusion.createUnifiedDocumentSet fts vec) e).2 hkey
  obtain ⟨d, hd⟩ := Option.isSome_iff_exists.1 hsome
  have hmem : (e, d) ∈ RRFFusion.createUnifiedDocumentSet fts vec :=
    jsGet_eq_some_mem _ e d hd
  have hnt : d.nodeType = e := unified_invariant fts vec (e, d) hmem
  have hndK := jsKeys_unified_nodup fts vec
  have hscore := jsGet_calculateRRFScores (RRFFusion.createUnifiedDocumentSet fts vec)
    k wfts wvec fts vec e hndK hkey
  refine ⟨(fun p : String × SearchResult =>
      let s := (jsGet (RRFFusion.calculateRRFScores
        (RRFFusion.createUnifiedDocumentSet fts vec) k wfts wvec fts vec) p.1).getD 0
      { p.2 with relevanceScore := s, rrfScore := some s }) (e, d), ?_, ?_, ?_⟩
  · unfold RRFFusion.fuseResults
    rw [List.mem_mergeSort]
    unfold RRFFusion.createFusedResults
    exact List.mem_map_of_mem _ hmem
  · exact hnt
  · show (jsGet (RRFFusion.calculateRRFScores
      (RRFFusion.createUnifiedDocumentSet fts vec) k wfts wvec fts vec) e).getD 0 = _
    rw [hscore]
    simp only [Option.getD_some]
    rw [jsGet_rankingMap fts e hf, jsGet_rankingMap vec e hv]
    by_cases hfe : e ∈ fts.map SearchResult.nodeType <;>
      by_cases hve : e ∈ vec.map SearchResult.nodeType <;>
      simp [RRFFusion.rrfContribution, hfe, hve]

/-- C1 witness: the fused-score theorem at a concrete pair of ranked
lists, with an entity present in both lists at rank 2 and rank 1. -/
theorem claim1_rrf_fused_scores_witness :
    (([sampleResult "A" 1, sampleResult "B" (1/2)].map SearchResult.nodeType).Nodup ∧
      ([sampleResult "B" 1].map SearchResult.nodeType).Nodup) ∧
    ∃ r ∈ RRFFusion.fuseResults 60 1 1
        [sampleResult "A" 1, sampleResult "B" (1/2)] [sampleResult "B" 1],
      r.nodeType = "B" ∧
      r.relevanceScore =
        (if "B" ∈ [sampleResult "A" 1, sampleResult "B" (1/2)].map SearchResult.nodeType
          then 1 * (1 / (60 + ((([sampleResult "A" 1, sampleResult "B" (1/2)].map
            SearchResult.nodeType).indexOf "B" + 1 : ℕ) : ℝ)))
          else 0) +
        (if "B" ∈ [sampleResult "B" 1].map SearchResult.nodeType
          then 1 * (1 / (60 + ((([sampleResult "B" 1].map
            SearchResult.nodeType).indexOf "B" + 1 : ℕ) : ℝ)))
          else 0) :=
  ⟨⟨by decide, by decide⟩,
    claim1_rrf_fused_scores 60 1 1
      [sampleResult "A" 1, sampleResult "B" (1/2)] [sampleResult "B" 1]
      (by decide) (by decide) "B" (by decide)⟩

/-- C10: the fused list carries each identifier at most once, its
identifier set is the union of the identifiers of the two inputs, and the
searchMethod of each entry records which sources contained it (hybrid for
both, fts5 or vector for a single source); the vector list must not repeat
an identifier, as a repeated vector identifier would be promoted to
hybrid against the claim. -/
theorem claim10_fused_union (k wfts wvec : ℝ) (fts vec : List SearchResult)
    (hv : (vec.map SearchResult.nodeType).Nodup) :
    ((RRFFusion.fuseResults k wfts wvec fts vec).map SearchResult.nodeType).Nodup ∧
    (∀ e : String,
      e ∈ (RRFFusion.fuseResults k wfts wvec fts vec).map SearchResult.nodeType ↔
        e ∈ fts.map SearchResult.nodeType ∨ e ∈ vec.map SearchResult.nodeType) ∧
    (∀ r ∈ RRFFusion.fuseResults k wfts wvec fts vec,
      r.searchMethod =
        if r.nodeType ∈ fts.map SearchResult.nodeType then
          (if r.nodeType ∈ vec.map SearchResult.nodeType then "hybrid" else "fts5")
        else "vector") := by
  have hkeysfused : (RRFFusion.createFusedResults
      (RRFFusion.createUnifiedDocumentSet fts vec)
      (RRFFusion.calculateRRFScores (RRFFusion.createUnifiedDocumentSet fts vec)
        k wfts wvec fts vec)).map SearchResult.nodeType =
      jsKeys (RRFFusion.createUnifiedDocumentSet fts vec) := by
    unfold RRFFusion.createFusedResults jsKeys
    rw [List.map_map]
    refine List.map_congr_left (fun p hp => ?_)
    exact unified_invariant fts vec p hp
  have hperm : List.Perm
      ((RRFFusion.fuseResults k wfts wvec fts vec).map SearchResult.nodeType)
      (jsKeys (RRFFusion.createUnifiedDocumentSet fts vec)) := by
    rw [← hkeysfused]
    unfold RRFFusion.fuseResults
    exact (List.mergeSort_perm _ _).map _
  refine ⟨?_, ?_, ?_⟩
  · exact hperm.nodup_iff.2 (jsKeys_unified_nodup fts vec)
  · intro e
    rw [hperm.mem_iff]
    exact mem_jsKeys_unified fts vec e
  · intro r hr
    have hr2 : r ∈ RRFFusion.createFusedResults
        (RRFFusion.createUnifiedDocumentSet fts vec)
        (RRFFusion.calculateRRFScores (RRFFusion.createUnifiedDocumentSet fts vec)
          k wfts wvec fts vec) := by
      unfold RRFFusion.fuseResults at hr
      exact List.mem_mergeSort.1 hr
    unfold RRFFusion.createFusedResults at hr2
    rcases List.mem_map.1 hr2 with ⟨p, hp, hconv⟩
    have hsm : r.searchMethod = p.2.searchMethod := by
      rw [← hconv]
    have hnt : r.nodeType = p.1 := by
      rw [← hconv]
      exact unified_invariant fts vec p hp
    rw [hsm, hnt]
    exact unified_searchMethod fts vec hv p hp

/-- C10 witness: the identifier-set theorem at a concrete pair of lists
sharing one entity. -/
theorem claim10_fused_union_witness :
    ([sampleResult "B" 1, sampleResult "C" (1/2)].map SearchResult.nodeType).Nodup ∧
    (∀ e : String,
      e ∈ (RRFFusion.fuseResults 60 1 1 [sampleResult "A" 1]
        [sampleResult "B" 1, sampleResult "C" (1/2)]).map SearchResult.nodeType ↔
        e ∈ [sampleResult "A" 1].map SearchResult.nodeType ∨
        e ∈ [sampleResult "B" 1, sampleResult "C" (1/2)].map SearchResult.nodeType) :=
  ⟨by decide,
    (claim10_fused_union 60 1 1 [sampleResult "A" 1]
      [sampleResult "B" 1, sampleResult "C" (1/2)] (by decide)).2.1⟩

/-! ### Cosine similarity: Cauchy-Schwarz and range -/

theorem sum_squares_nonneg (l : List ℚ) : 0 ≤ (l.map (fun x => x * x)).sum := by
  refine List.sum_nonneg ?_
  intro x hx
  rcases List.mem_map.1 hx with ⟨y, hy, hye⟩
  rw [← hye]
  exact mul_self_nonneg y

theorem list_inner_sq_le (a b : List ℚ) :
    ((List.zipWith (fun x y => x * y) a b).sum) ^ 2 ≤
      (a.map (fun x => x * x)).sum * (b.map (fun x => x * x)).sum := by
  induction a generalizing b with
  | nil => simp
  | cons x a2 ih =>
    cases b with
    | nil => simp
    | cons y b2 =>
      simp only [List.zipWith_cons_cons, List.map_cons, List.sum_cons]
      have IH := ih b2
      have hna := sum_squares_nonneg a2
      have hnb := sum_squares_nonneg b2
      rcases eq_or_lt_of_le hnb with hb0 | hbpos
      · have hd0 : (List.zipWith (fun x y => x * y) a2 b2).sum = 0 := by
          have h1 : (List.zipWith (fun x y => x * y) a2 b2).sum ^ 2 ≤ 0 := by
            nlinarith [IH]
          nlinarith [sq_nonneg ((List.zipWith (fun x y => x * y) a2 b2).sum)]
        rw [hd0, ← hb0]
        nlinarith [mul_nonneg hna (mul_self_nonneg y)]
      · nlinarith [sq_nonneg (x * (b2.map (fun x => x * x)).sum -
            y * (List.zipWith (fun x y => x * y) a2 b2).sum),
          mul_nonneg (add_nonneg (mul_self_nonneg y) hnb) (sub_nonneg.2 IH),
          hbpos]

theorem div_sqrt_range (D na nb : ℝ) (hna : 0 ≤ na) (hnb : 0 ≤ nb)
    (hcs : D ^ 2 ≤ na * nb) :
    -1 ≤ D / (Real.sqrt na * Real.sqrt nb) ∧
      D / (Real.sqrt na * Real.sqrt nb) ≤ 1 := by
  have hs : 0 ≤ Real.sqrt na * Real.sqrt nb :=
    mul_nonneg (Real.sqrt_nonneg na) (Real.sqrt_nonneg nb)
  rcases eq_or_lt_of_le hs with hz | hpos
  · rw [← hz, div_zero]
    constructor <;> norm_num
  · have hsq : (Real.sqrt na * Real.sqrt nb) ^ 2 = na * nb := by
      rw [mul_pow, Real.sq_sqrt hna, Real.sq_sqrt hnb]
    have habs : |D| ≤ Real.sqrt na * Real.sqrt nb := by
      have h1 : Real.sqrt (D ^ 2) ≤ Real.sqrt ((Real.sqrt na * Real.sqrt nb) ^ 2) := by
        apply Real.sqrt_le_sqrt
        rw [hsq]
        exact hcs
      rwa [Real.sqrt_sq_eq_abs, Real.sqrt_sq hs] at h1
    have hdiv : |D / (Real.sqrt na * Real.sqrt nb)| ≤ 1 := by
      rw [abs_div, abs_of_nonneg hs]
      exact div_le_one_of_le₀ habs hs
    exact abs_le.1 hdiv

/-- C6: the cosine similarity of equal-length vectors is total, returns 0
whenever either vector has zero norm (the isNaN fallback of the source),
and always lies in the closed interval from -1 to 1. -/
theorem claim6_cosine_range (a b : List ℚ) (hlen : a.length = b.length) :
    (((a.map (fun x => x * x)).sum = 0 ∨ (b.map (fun x => x * x)).sum = 0) →
      VectorRepository.calculateCosineSimilarity a b = 0) ∧
    (-1 ≤ VectorRepository.calculateCosineSimilarity a b ∧
      VectorRepository.calculateCosineSimilarity a b ≤ 1) := by
  simp only [VectorRepository.calculateCosineSimilarity]
  constructor
  · rintro (h | h)
    · rw [h]
      push_cast
      rw [Real.sqrt_zero, zero_mul, div_zero]
    · rw [h]
      push_cast
      rw [Real.sqrt_zero, mul_zero, div_zero]
  · refine div_sqrt_range _ _ _ ?_ ?_ ?_
    · exact_mod_cast sum_squares_nonneg a
    · exact_mod_cast sum_squares_nonneg b
    · exact_mod_cast list_inner_sq_le a b

/-- C6 witness: the range theorem at a concrete equal-length pair. -/
theorem claim6_cosine_range_witness :
    ([3, 4] : List ℚ).length = ([4, 3] : List ℚ).length ∧
    (-1 ≤ VectorRepository.calculateCosineSimilarity [3, 4] [4, 3] ∧
      VectorRepository.calculateCosineSimilarity [3, 4] [4, 3] ≤ 1) :=
  ⟨by decide, (claim6_cosine_range [3, 4] [4, 3] (by decide)).2⟩

/-! ### Claim 3: similarity threshold, ordering, truncation -/

/-- C3 counterexample: with no caller-supplied threshold the claim
predicts the permissive default 0.2, under which a candidate of similarity
7/25 = 0.28 survives; findSimilarNodes instead applies its own default 0.5
and discards it. -/
theorem claim3_counterexample :
    VectorRepository.calculateCosineSimilarity [1, 0] [7, 24] = 7 / 25 ∧
    ((1/5 : ℝ) ≤ 7 / 25 ∧ ¬ ((1/2 : ℝ) ≤ 7 / 25)) ∧
    VectorRepository.findSimilarNodes
      [sampleNodeRow "A" (some [7, 24]) none none 0] [1, 0]
      { limit := 10 } = [] := by
  have h1 : (List.zipWith (fun x y => x * y) ([1, 0] : List ℚ) [7, 24]).sum = 7 := by
    norm_num
  have h2 : (([1, 0] : List ℚ).map (fun x => x * x)).sum = 1 := by
    norm_num
  have h3 : (([7, 24] : List ℚ).map (fun x => x * x)).sum = 625 := by
    norm_num
  have h625 : Real.sqrt 625 = 25 := by
    rw [show (625 : ℝ) = 25 ^ 2 by norm_num]
    exact Real.sqrt_sq (by norm_num)
  have hcos : VectorRepository.calculateCosineSimilarity [1, 0] [7, 24] = 7 / 25 := by
    simp only [VectorRepository.calculateCosineSimilarity]
    rw [h1, h2, h3]
    push_cast
    rw [Real.sqrt_one, h625, one_mul]
  refine ⟨hcos, ⟨by norm_num, by norm_num⟩, ?_⟩
  simp only [VectorRepository.findSimilarNodes, sampleNodeRow,
    List.filterMap_cons, List.filterMap_nil, Option.map_some']
  rw [if_pos (by norm_num : ([7, 24] : List ℚ).length = ([1, 0] : List ℚ).length)]
  rw [hcos]
  rw [if_neg (by norm_num)]
  simp

/-- C3 (amended): findSimilar discards every candidate whose similarity is
strictly below the threshold, the threshold defaulting to 0.5 - not 0.2 -
when the caller supplies none (the hybrid engine always supplies 0.2
explicitly, which executeVectorSearch shows); the survivors come from
stored rows, are sorted non-increasingly by similarity, and are truncated
to the limit; templates behave identically. -/
theorem claim3_findSimilar (db : List NodeRow) (tdb : List TemplateRow)
    (q : List ℚ) (options : VectorSearchOptions) :
    (options.threshold = none →
      VectorRepository.findSimilarNodes db q options =
        VectorRepository.findSimilarNodes db q
          { options with threshold := some (1/2) } ∧
      VectorRepository.findSimilarTemplates tdb q options =
        VectorRepository.findSimilarTemplates tdb q
          { options with threshold := some (1/2) }) ∧
    (∀ r ∈ VectorRepository.findSimilarNodes db q options,
      ((options.threshold.getD (1/2) : ℚ) : ℝ) ≤ r.relevanceScore ∧
      ∃ row ∈ db, ∃ v, row.embedding_vector = some v ∧
        r.nodeType = row.node_type ∧
        r.relevanceScore = VectorRepository.calculateCosineSimilarity q v) ∧
    scoresNonIncreasing (VectorRepository.findSimilarNodes db q options) ∧
    (VectorRepository.findSimilarNodes db q options).length ≤ options.limit ∧
    (∀ r ∈ VectorRepository.findSimilarTemplates tdb q options,
      ((options.threshold.getD (1/2) : ℚ) : ℝ) ≤ r.relevanceScore) ∧
    scoresNonIncreasing (VectorRepository.findSimilarTemplates tdb q options) ∧
    (VectorRepository.findSimilarTemplates tdb q options).length ≤ options.limit ∧
    (∀ n : ℕ, HybridSearchEngine.executeVectorSearch true (Except.ok q) db n =
      VectorRepository.findSimilarNodes db q
        { limit := n, threshold := some (1/5), includeDistances := true }) := by
  refine ⟨?_, ?_, ?_, ?_, ?_, ?_, ?_, ?_⟩
  · intro h
    constructor
    · simp only [VectorRepository.findSimilarNodes, h, Option.getD_none,
        Option.getD_some]
    · simp only [VectorRepository.findSimilarTemplates, h, Option.getD_none,
        Option.getD_some]
  · intro r hr
    simp only [VectorRepository.findSimilarNodes] at hr
    rcases List.mem_map.1 hr with ⟨p, hp, hpe⟩
    have hp2 := List.mem_mergeSort.1 (List.mem_of_mem_take hp)
    rcases List.mem_filterMap.1 hp2 with ⟨pr, hpr, hg⟩
    rcases List.mem_filterMap.1 hpr with ⟨row, hrow, hf⟩
    rcases Option.map_eq_some'.1 hf with ⟨v, hv, hve⟩
    split_ifs at hg with hl ht
    · have hpval : p = (pr.1, VectorRepository.calculateCosineSimilarity q pr.2) :=
        (Option.some.inj hg).symm
      refine ⟨?_, row, hrow, v, hv, ?_, ?_⟩
      · rw [← hpe, hpval]
        exact ht
      · rw [← hpe, hpval, ← hve]
      · rw [← hpe, hpval, ← hve]
  · simp only [VectorRepository.findSimilarNodes, scoresNonIncreasing]
    rw [List.pairwise_map]
    refine List.Pairwise.sublist (List.take_sublist _ _) ?_
    exact pairwise_ge_mergeSort (fun p : NodeRow × ℝ => p.2) _
  · simp only [VectorRepository.findSimilarNodes, List.length_map]
    exact List.length_take_le _ _
  · intro r hr
    simp only [VectorRepository.findSimilarTemplates] at hr
    rcases List.mem_map.1 hr with ⟨p, hp, hpe⟩
    have hp2 := List.mem_mergeSort.1 (List.mem_of_mem_take hp)
    rcases List.mem_filterMap.1 hp2 with ⟨pr, hpr, hg⟩
    split_ifs at hg with hl ht
    · have hpval : p = (pr.1, VectorRepository.calculateCosineSimilarity q pr.2) :=
        (Option.some.inj hg).symm
      rw [← hpe, hpval]
      exact ht
  · simp only [VectorRepository.findSimilarTemplates, scoresNonIncreasing]
    rw [List.pairwise_map]
    refine List.Pairwise.sublist (List.take_sublist _ _) ?_
    exact pairwise_ge_mergeSort (fun p : TemplateRow × ℝ => p.2) _
  · simp only [VectorRepository.findSimilarTemplates, List.length_map]
    exact List.length_take_le _ _
  · intro n
    simp [HybridSearchEngine.executeVectorSearch]

/-- C3 witness: the amended theorem at a concrete repository, with the
missing-threshold hypothesis discharged. -/
theorem claim3_findSimilar_witness :
    ({ limit := 10 } : VectorSearchOptions).threshold = none ∧
    (VectorRepository.findSimilarNodes
        [sampleNodeRow "A" (some [7, 24]) none none 0] [1, 0] { limit := 10 } =
      VectorRepository.findSimilarNodes
        [sampleNodeRow "A" (some [7, 24]) none none 0] [1, 0]
        { ({ limit := 10 } : VectorSearchOptions) with threshold := some (1/2) } ∧
      VectorRepository.findSimilarTemplates ([] : List TemplateRow) [1, 0]
        { limit := 10 } =
      VectorRepository.findSimilarTemplates ([] : List TemplateRow) [1, 0]
        { ({ limit := 10 } : VectorSearchOptions) with threshold := some (1/2) }) :=
  ⟨rfl,
    (claim3_findSimilar [sampleNodeRow "A" (some [7, 24]) none none 0] []
      [1, 0] { limit := 10 }).1 rfl⟩

/-! ### Claim 5: reranker degradation -/

theorem take_min_append_drop {β : Type} (l : List β) (m : ℕ) :
    l.take (min l.length m) ++ l.drop m = l := by
  rcases le_or_lt m l.length with h | h
  · rw [Nat.min_eq_right h]
    exact List.take_append_drop m l
  · rw [Nat.min_eq_left (le_of_lt h), List.take_length,
      List.drop_eq_nil_of_le (le_of_lt h), List.append_nil]

theorem findSome?_range'_first {β : Type} (f : ℕ → Option β) :
    ∀ (n s k : ℕ) (b : β), s ≤ k → k < s + n → f k = some b →
      (∀ j, s ≤ j → j < k → f j = none) →
      (List.range' s n).findSome? f = some b := by
  intro n
  induction n with
  | zero =>
    intro s k b h1 h2 _ _
    omega
  | succ n ih =>
    intro s k b h1 h2 hfk hprev
    rw [List.range'_succ]
    by_cases hsk : s = k
    · rw [List.findSome?_cons_of_isSome _ (by rw [hsk, hfk]; rfl)]
      rw [hsk]
      exact hfk
    · have hfs : f s = none := hprev s le_rfl (by omega)
      rw [List.findSome?_cons_of_isNone _ (by rw [hfs]; rfl)]
      exact ih (s + 1) k b (by omega) (by omega) hfk
        (fun j hj1 hj2 => hprev j (by omega) hj2)

theorem processRerankResponse_nil (docs : List SearchResult) (q : String) :
    CohereReranker.processRerankResponse [] docs q = docs := by
  simp [CohereReranker.processRerankResponse]

/-- C5 counterexample: a syntactically successful response whose single
entry carries an out-of-range index makes rerank return the empty list,
not the original candidate list, although the claim demands the original
list on any malformed response. -/
theorem claim5_counterexample :
    CohereReranker.rerank {} (Except.ok ())
      (fun _ => Except.ok [{ index := 1, score := 9/10 }]) "q"
      [sampleResult "A" (1/2)] = [] ∧
    [sampleResult "A" (1/2)] ≠ ([] : List SearchResult) := by
  constructor
  · have hguard : (([sampleResult "A" (1/2)].isEmpty) || isBlank "q") = false := by
      decide
    have hfound : (List.range ({} : CohereReranker.RerankerConfig).maxRetries).findSome?
        (fun k => ((fun _ : ℕ =>
          (Except.ok [({ index := 1, score := 9/10 } : CohereReranker.RerankEntry)] :
            Except String (List CohereReranker.RerankEntry))) k).toOption) =
        some [{ index := 1, score := 9/10 }] := by
      rfl
    simp only [CohereReranker.rerank, hguard, Bool.false_eq_true, if_false,
      CohereReranker.rerankWithRetries, hfound, CohereReranker.processRerankResponse]
    simp [List.foldl]
  · simp

/-- C5 (amended): rerank returns the original candidate list unchanged when
client initialization fails, when every retry of the remote call fails, or
when a response carries no results; no failure propagates to the caller
(the model is total).  A response with entries is processed even when its
indices are invalid, so it can produce a list other than the original. -/
theorem claim5_rerank_failure_passthrough (cfg : CohereReranker.RerankerConfig)
    (attempts : ℕ → Except String (List CohereReranker.RerankEntry))
    (query : String) (documents : List SearchResult) :
    (∀ e : String,
      CohereReranker.rerank cfg (Except.error e) attempts query documents =
        documents) ∧
    ((∀ j, j < cfg.maxRetries → (attempts j).toOption = none) →
      CohereReranker.rerank cfg (Except.ok ()) attempts query documents =
        documents) ∧
    (∀ k, k < cfg.maxRetries → attempts k = Except.ok [] →
      (∀ j, j < k → (attempts j).toOption = none) →
      CohereReranker.rerank cfg (Except.ok ()) attempts query documents =
        documents) := by
  refine ⟨?_, ?_, ?_⟩
  · intro e
    by_cases hg : (documents.isEmpty || isBlank query) = true
    · simp only [CohereReranker.rerank, hg, if_true]
    · simp only [CohereReranker.rerank, hg, Bool.false_eq_true, if_false]
  · intro hall
    by_cases hg : (documents.isEmpty || isBlank query) = true
    · simp only [CohereReranker.rerank, hg, if_true]
    · have hnone : (List.range cfg.maxRetries).findSome?
          (fun k => (attempts k).toOption) = none :=
        List.findSome?_eq_none_iff.2 (fun x hx => hall x (List.mem_range.1 hx))
      simp only [CohereReranker.rerank, hg, Bool.false_eq_true, if_false,
        CohereReranker.rerankWithRetries, hnone]
  · intro k hk hok hprev
    by_cases hg : (documents.isEmpty || isBlank query) = true
    · simp only [CohereReranker.rerank, hg, if_true]
    · have hfound : (List.range cfg.maxRetries).findSome?
          (fun j => (attempts j).toOption) = some [] := by
        rw [List.range_eq_range']
        exact findSome?_range'_first _ cfg.maxRetries 0 k []
          (Nat.zero_le k) (by omega) (by rw [hok]; rfl)
          (fun j hj1 hj2 => hprev j hj2)
      simp only [CohereReranker.rerank, hg, Bool.false_eq_true, if_false,
        CohereReranker.rerankWithRetries, hfound, processRerankResponse_nil]
      exact take_min_append_drop documents cfg.maxDocuments

/-- C5 witness: the pass-through theorem at a concrete failing run, first
attempt succeeding with an empty results array. -/
theorem claim5_rerank_failure_passthrough_witness :
    (0 < ({} : CohereReranker.RerankerConfig).maxRetries ∧
      (fun _ : ℕ => (Except.ok ([] : List CohereReranker.RerankEntry) :
        Except String (List CohereReranker.RerankEntry))) 0 = Except.ok []) ∧
    CohereReranker.rerank {} (Except.ok ())
      (fun _ => Except.ok ([] : List CohereReranker.RerankEntry)) "q"
      [sampleResult "A" 1] = [sampleResult "A" 1] :=
  ⟨⟨by decide, rfl⟩,
    (claim5_rerank_failure_passthrough {} (fun _ => Except.ok []) "q"
      [sampleResult "A" 1]).2.2 0 (by decide) rfl (fun j hj => by omega)⟩

/-! ### Claim 7: score ordering of the pipeline lists -/

theorem fuseResults_sorted (k wfts wvec : ℝ) (fts vec : List SearchResult) :
    scoresNonIncreasing (RRFFusion.fuseResults k wfts wvec fts vec) := by
  unfold RRFFusion.fuseResults scoresNonIncreasing
  exact pairwise_ge_mergeSort SearchResult.relevanceScore _

theorem findSimilarNodes_sorted (db : List NodeRow) (q : List ℚ)
    (options : VectorSearchOptions) :
    scoresNonIncreasing (VectorRepository.findSimilarNodes db q options) := by
  simp only [VectorRepository.findSimilarNodes, scoresNonIncreasing]
  rw [List.pairwise_map]
  refine List.Pairwise.sublist (List.take_sublist _ _) ?_
  exact pairwise_ge_mergeSort (fun p : NodeRow × ℝ => p.2) _

theorem executeVectorSearch_sorted (ready : Bool)
    (embedOutcome : Except String (List ℚ)) (db : List NodeRow) (n : ℕ) :
    scoresNonIncreasing
      (HybridSearchEngine.executeVectorSearch ready embedOutcome db n) := by
  unfold HybridSearchEngine.executeVectorSearch
  by_cases hr : ready = true
  · simp only [hr]
    cases embedOutcome with
    | error e => simp [scoresNonIncreasing]
    | ok qv =>
      simp only []
      split
      · exact List.Pairwise.nil
      · exact findSimilarNodes_sorted db qv _
  · simp only [Bool.not_eq_true] at hr
    simp [hr, scoresNonIncreasing]

theorem one_lt_length_of_two_mem {l : List String} {a b : String}
    (ha : a ∈ l) (hb : b ∈ l) (hab : ¬ a = b) : 1 < l.length := by
  cases l with
  | nil => cases ha
  | cons x t =>
    cases t with
    | nil =>
      rw [List.mem_singleton] at ha hb
      exact absurd (ha.trans hb.symm) hab
    | cons y u =>
      simp only [List.length_cons]
      omega

theorem processRerank_step_sorted (q : String) (docs : List SearchResult) :
    ∀ (r : List CohereReranker.RerankEntry) (acc : List SearchResult),
      scoresNonIncreasing acc →
      (∀ a ∈ acc, ∀ e ∈ r, e.score ≤ a.relevanceScore) →
      (r.map (fun e => e.score)).Pairwise (fun x y => y ≤ x) →
      scoresNonIncreasing (r.foldl
        (fun acc e =>
          match docs.get? e.index with
          | some d => acc ++
              [{ d with
                 relevanceScore := e.score
                 searchMethod := "hybrid"
                 cohereScore := some e.score
                 cohereRank := some (acc.length + 1)
                 rerankQuery := some q }]
          | none => acc) acc) := by
  intro r
  induction r with
  | nil =>
    intro acc h1 _ _
    exact h1
  | cons e r2 ih =>
    intro acc h1 h2 h3
    rw [List.foldl_cons]
    rw [List.map_cons, List.pairwise_cons] at h3
    cases hd : docs.get? e.index with
    | none =>
      simp only [hd]
      exact ih acc h1 (fun a ha e2 he2 => h2 a ha e2 (List.mem_cons_of_mem e he2))
        h3.2
    | some d =>
      simp only [hd]
      refine ih _ ?_ ?_ h3.2
      · rw [scoresNonIncreasing, List.pairwise_append]
        refine ⟨h1, List.pairwise_singleton _ _, ?_⟩
        intro a ha b hb
        rw [List.mem_singleton.1 hb]
        exact h2 a ha e (List.mem_cons_self e r2)
      · intro a ha e2 he2
        rcases List.mem_append.1 ha with ha1 | ha1
        · exact h2 a ha1 e2 (List.mem_cons_of_mem e he2)
        · rw [List.mem_singleton.1 ha1]
          exact h3.1 e2.score (List.mem_map_of_mem _ he2)

theorem processRerankResponse_sorted (r : List CohereReranker.RerankEntry)
    (docs : List SearchResult) (q : String)
    (hr : (r.map (fun e => e.score)).Pairwise (fun x y => y ≤ x))
    (hd : scoresNonIncreasing docs) :
    scoresNonIncreasing (CohereReranker.processRerankResponse r docs q) := by
  unfold CohereReranker.processRerankResponse
  by_cases he : r.isEmpty = true
  · rw [if_pos he]
    exact hd
  · rw [if_neg he]
    exact processRerank_step_sorted q docs r [] List.Pairwise.nil (by simp) hr

theorem rerank_sorted (cfg : CohereReranker.RerankerConfig)
    (initOutcome : Except String Unit)
    (attempts : ℕ → Except String (List CohereReranker.RerankEntry))
    (query : String) (documents : List SearchResult)
    (hdocs : scoresNonIncreasing documents)
    (hresp : ∀ j r, attempts j = Except.ok r →
      (r.map (fun e => e.score)).Pairwise (fun x y => y ≤ x))
    (hlen : documents.length ≤ cfg.maxDocuments) :
    scoresNonIncreasing
      (CohereReranker.rerank cfg initOutcome attempts query documents) := by
  by_cases hg : (documents.isEmpty || isBlank query) = true
  · simp only [CohereReranker.rerank, hg, if_true]
    exact hdocs
  · simp only [CohereReranker.rerank, hg, Bool.false_eq_true, if_false]
    cases initOutcome with
    | error e => exact hdocs
    | ok u =>
      simp only []
      cases hrr : CohereReranker.rerankWithRetries cfg attempts query
          (documents.take (min documents.length cfg.maxDocuments)) with
      | error e => exact hdocs
      | ok rr =>
        simp only []
        rw [List.drop_eq_nil_of_le hlen, List.append_nil]
        unfold CohereReranker.rerankWithRetries at hrr
        cases hcase : (List.range cfg.maxRetries).findSome?
            (fun j => (attempts j).toOption) with
        | none =>
          rw [hcase] at hrr
          cases hrr
        | some r =>
          rw [hcase] at hrr
          have hrr2 : rr = CohereReranker.processRerankResponse r
              (documents.take (min documents.length cfg.maxDocuments)) query := by
            injection hrr with h
            exact h.symm
          rcases List.exists_of_findSome?_eq_some hcase with ⟨j, hj, hjr⟩
          have hja : attempts j = Except.ok r := by
            cases hatt : attempts j with
            | error e =>
              rw [hatt] at hjr
              cases hjr
            | ok v =>
              rw [hatt] at hjr
              have : v = r := by
                injection hjr
              rw [this]
          rw [hrr2]
          refine processRerankResponse_sorted r _ query (hresp j r hja) ?_
          exact List.Pairwise.sublist (List.take_sublist _ _) hdocs

theorem stage2_sorted (k wfts wvec : ℝ) (prrf : Bool) (F V : List SearchResult)
    (hF : scoresNonIncreasing F) (hV : scoresNonIncreasing V)
    (hboth : F.isEmpty = false → V.isEmpty = false → prrf = true) :
    scoresNonIncreasing
      (if prrf && !F.isEmpty && !V.isEmpty then
        RRFFusion.fuseResults k wfts wvec F V
      else if !F.isEmpty && V.isEmpty then F
      else if !V.isEmpty && F.isEmpty then V
      else F ++ V) := by
  cases hFe : F.isEmpty <;> cases hVe : V.isEmpty
  · rw [hboth hFe hVe]
    simp only [hFe, hVe, Bool.not_false, Bool.and_true, Bool.true_and, if_true]
    exact fuseResults_sorted k wfts wvec F V
  · simp only [hFe, hVe, Bool.not_false, Bool.not_true, Bool.and_true,
      Bool.and_false, Bool.false_and, Bool.false_eq_true, if_false, if_true]
    exact hF
  · simp only [hFe, hVe, Bool.not_false, Bool.not_true, Bool.and_true,
      Bool.and_false, Bool.false_and, Bool.false_eq_true, if_false, if_true]
    exact hV
  · have hFn : F = [] := List.isEmpty_iff.1 hFe
    have hVn : V = [] := List.isEmpty_iff.1 hVe
    simp only [hFe, hVe, Bool.not_true, Bool.and_false, Bool.false_and,
      Bool.and_true, Bool.false_eq_true, if_false, hFn, hVn, List.append_nil]
    exact List.Pairwise.nil

theorem executeSearchPipeline_sorted_without_rerank
    (options : HybridSearchEngine.HybridSearchOptions)
    (fts5Available : List SearchResult) (ready : Bool)
    (embedOutcome : Except String (List ℚ)) (db : List NodeRow)
    (k wfts wvec : ℝ) (rerankAvailable : Bool)
    (cfg : CohereReranker.RerankerConfig) (initOutcome : Except String Unit)
    (attempts : ℕ → Except String (List CohereReranker.RerankEntry))
    (query : String)
    (hrk : options.enableReranking = false)
    (hsorted : scoresNonIncreasing fts5Available) :
    scoresNonIncreasing (HybridSearchEngine.executeSearchPipeline options
      fts5Available ready embedOutcome db k wfts wvec rerankAvailable cfg
      initOutcome attempts query) := by
  simp only [HybridSearchEngine.executeSearchPipeline, hrk, Bool.false_and,
    Bool.false_eq_true, if_false]
  refine List.Pairwise.sublist (List.take_sublist _ _) ?_
  refine stage2_sorted k wfts wvec _ _ _ ?_ ?_ ?_
  · split
    · exact hsorted
    · exact List.Pairwise.nil
  · split
    · exact executeVectorSearch_sorted ready embedOutcome db (options.limit * 2)
    · exact List.Pairwise.nil
  · intro hFe hVe
    have hpf : options.searchMethods.contains "fts5" = true := by
      by_contra hc
      rw [if_neg hc] at hFe
      cases hFe
    have hpv : options.searchMethods.contains "vector" = true := by
      by_contra hc
      rw [if_neg hc] at hVe
      cases hVe
    rw [decide_eq_true_eq]
    have hm1 : "fts5" ∈ options.searchMethods := List.elem_iff.1 hpf
    have hm2 : "vector" ∈ options.searchMethods := List.elem_iff.1 hpv
    exact one_lt_length_of_two_mem hm1 hm2 (by decide)

/-- C7 counterexample: a sorted fused list reranked through a response
whose scores are increasing comes back in response order, so the reranked
list violates the non-increasing invariant the claim asserts for every
stage output. -/
theorem claim7_counterexample :
    scoresNonIncreasing [sampleResult "A" (1/2), sampleResult "B" (2/5)] ∧
    ¬ scoresNonIncreasing (CohereReranker.rerank {} (Except.ok ())
      (fun _ => Except.ok [{ index := 0, score := 1/10 },
        { index := 1, score := 9/10 }]) "q"
      [sampleResult "A" (1/2), sampleResult "B" (2/5)]) := by
  constructor
  · refine List.Pairwise.cons ?_ (List.pairwise_singleton _ _)
    intro b hb
    rw [List.mem_singleton.1 hb]
    show (2/5 : ℝ) ≤ 1/2
    norm_num
  · have hguard : ([sampleResult "A" (1/2), sampleResult "B" (2/5)].isEmpty ||
        isBlank "q") = false := by decide
    have hfound : (List.range ({} : CohereReranker.RerankerConfig).maxRetries).findSome?
        (fun k => ((fun _ : ℕ =>
          (Except.ok [({ index := 0, score := 1/10 } : CohereReranker.RerankEntry),
            { index := 1, score := 9/10 }] :
              Except String (List CohereReranker.RerankEntry))) k).toOption) =
        some [{ index := 0, score := 1/10 }, { index := 1, score := 9/10 }] := rfl
    have hmin : min ([sampleResult "A" (1/2), sampleResult "B" (2/5)].length)
        ({} : CohereReranker.RerankerConfig).maxDocuments = 2 := by decide
    simp only [CohereReranker.rerank, hguard, Bool.false_eq_true, if_false,
      CohereReranker.rerankWithRetries, hfound, hmin,
      CohereReranker.processRerankResponse]
    intro h
    simp only [List.isEmpty_cons, Bool.false_eq_true, if_false,
      List.foldl_cons, List.foldl_nil, List.take_succ_cons, List.take_zero,
      List.get?_cons_zero, List.get?_cons_succ, List.nil_append,
      List.drop_eq_nil_of_le (by decide :
        ([sampleResult "A" (1/2), sampleResult "B" (2/5)] :
          List SearchResult).length ≤ 1000), List.append_nil] at h
    rcases List.pairwise_cons.1 h with ⟨hh, _⟩
    have := hh _ (List.mem_cons_self _ _)
    have h910 : (9/10 : ℝ) ≤ 1/10 := this
    norm_num at h910

/-- C7 (amended): the fused list and the vector-search list are always
non-increasing in relevanceScore; the reranked list is non-increasing
provided the provider's response scores are non-increasing and every
candidate was sent (the appended excess being empty); and the list search
returns is non-increasing whenever reranking is skipped and the lexical
input list was non-increasing.  A reranked list can otherwise violate the
invariant, as the counterexample shows. -/
theorem claim7_ordering (k wfts wvec : ℝ) (fts vec : List SearchResult)
    (db : List NodeRow) (q : List ℚ) (vopts : VectorSearchOptions)
    (cfg : CohereReranker.RerankerConfig) (initOutcome : Except String Unit)
    (attempts : ℕ → Except String (List CohereReranker.RerankEntry))
    (query : String) (documents : List SearchResult)
    (options : HybridSearchEngine.HybridSearchOptions)
    (fts5Available : List SearchResult) (ready : Bool)
    (embedOutcome : Except String (List ℚ)) (rerankAvailable : Bool) :
    scoresNonIncreasing (RRFFusion.fuseResults k wfts wvec fts vec) ∧
    scoresNonIncreasing (VectorRepository.findSimilarNodes db q vopts) ∧
    (scoresNonIncreasing documents →
      (∀ j r, attempts j = Except.ok r →
        (r.map (fun e => e.score)).Pairwise (fun x y => y ≤ x)) →
      documents.length ≤ cfg.maxDocuments →
      scoresNonIncreasing
        (CohereReranker.rerank cfg initOutcome attempts query documents)) ∧
    (options.enableReranking = false → scoresNonIncreasing fts5Available →
      ∀ l, HybridSearchEngine.search query options fts5Available ready
          embedOutcome db k wfts wvec rerankAvailable cfg initOutcome
          attempts = Except.ok l →
        scoresNonIncreasing l) := by
  refine ⟨fuseResults_sorted k wfts wvec fts vec,
    findSimilarNodes_sorted db q vopts,
    fun hdocs hresp hlen =>
      rerank_sorted cfg initOutcome attempts query documents hdocs hresp hlen,
    ?_⟩
  intro hrk hs l hl
  by_cases hq : isBlank query = true
  · rw [HybridSearchEngine.search, if_pos hq] at hl
    injection hl with h2
    rw [← h2]
    exact List.Pairwise.nil
  · rw [HybridSearchEngine.search, if_neg hq] at hl
    injection hl with h2
    rw [← h2]
    exact executeSearchPipeline_sorted_without_rerank options fts5Available
      ready embedOutcome db k wfts wvec rerankAvailable cfg initOutcome
      attempts query hrk hs

/-- C7 witness: the rerank part of the ordering theorem at a concrete
sorted candidate list and an in-order response. -/
theorem claim7_ordering_witness :
    scoresNonIncreasing [sampleResult "A" 1] ∧
    ([sampleResult "A" 1] : List SearchResult).length ≤
      ({} : CohereReranker.RerankerConfig).maxDocuments ∧
    scoresNonIncreasing (CohereReranker.rerank {} (Except.ok ())
      (fun _ => Except.ok ([] : List CohereReranker.RerankEntry)) "q"
      [sampleResult "A" 1]) :=
  ⟨List.pairwise_singleton _ _, by decide,
    (claim7_ordering 60 1 1 [] [] [] [] { limit := 10 } {} (Except.ok ())
      (fun _ => Except.ok []) "q" [sampleResult "A" 1] {} [] true
      (Except.ok []) false).2.2.1
      (List.pairwise_singleton _ _)
      (fun j r h => by
        injection h with h2
        rw [← h2]
        exact List.Pairwise.nil)
      (by decide)⟩

/-! ### Claim 4: behaviour of search under embedding failure -/

theorem executeVectorSearch_error (ready : Bool) (e : String)
    (db : List NodeRow) (n : ℕ) :
    HybridSearchEngine.executeVectorSearch ready (Except.error e) db n = [] := by
  unfold HybridSearchEngine.executeVectorSearch
  cases ready <;> simp

/-- C4 counterexample: with vector search as the sole enabled method and a
failing embedding subsystem, search returns an empty ok result instead of
raising the hard error the claim requires. -/
theorem claim4_counterexample :
    HybridSearchEngine.search "chatbot" { searchMethods := ["vector"] } []
      true (Except.error "embedding generation failed") [] 60 1 1 false {}
      (Except.ok ()) (fun _ => Except.ok []) = Except.ok [] ∧
    ∀ err : String,
      ¬ HybridSearchEngine.search "chatbot" { searchMethods := ["vector"] } []
        true (Except.error "embedding generation failed") [] 60 1 1 false {}
        (Except.ok ()) (fun _ => Except.ok []) = Except.error err := by
  have h1 : HybridSearchEngine.search "chatbot" { searchMethods := ["vector"] }
      [] true (Except.error "embedding generation failed") [] 60 1 1 false {}
      (Except.ok ()) (fun _ => Except.ok []) = Except.ok [] := by
    rw [HybridSearchEngine.search, if_neg (by decide)]
    rw [HybridSearchEngine.executeSearchPipeline]
    rw [executeVectorSearch_error]
    simp
  refine ⟨h1, fun err h => ?_⟩
  rw [h1] at h
  cases h

/-- C4 (amended): an embedding failure never escapes search as an error:
executeVectorSearch catches it and returns the empty list.  In hybrid mode
the result is identical to a lexical-only search; in vector-only mode the
result is the empty ok list, not a hard error. -/
theorem claim4_embedding_failure (query : String)
    (options : HybridSearchEngine.HybridSearchOptions)
    (fts5Available : List SearchResult) (ready : Bool) (db : List NodeRow)
    (k wfts wvec : ℝ) (rerankAvailable : Bool)
    (cfg : CohereReranker.RerankerConfig) (initOutcome : Except String Unit)
    (attempts : ℕ → Except String (List CohereReranker.RerankEntry))
    (e : String) :
    (∃ l, HybridSearchEngine.search query options fts5Available ready
      (Except.error e) db k wfts wvec rerankAvailable cfg initOutcome
      attempts = Except.ok l) ∧
    (options.searchMethods = ["fts5", "vector"] →
      HybridSearchEngine.search query options fts5Available ready
        (Except.error e) db k wfts wvec rerankAvailable cfg initOutcome
        attempts =
      HybridSearchEngine.search query
        { options with searchMethods := ["fts5"] } fts5Available ready
        (Except.error e) db k wfts wvec rerankAvailable cfg initOutcome
        attempts) ∧
    (options.searchMethods = ["vector"] →
      HybridSearchEngine.search query options fts5Available ready
        (Except.error e) db k wfts wvec rerankAvailable cfg initOutcome
        attempts = Except.ok []) := by
  refine ⟨?_, ?_, ?_⟩
  · by_cases hq : isBlank query = true
    · exact ⟨[], by rw [HybridSearchEngine.search, if_pos hq]⟩
    · exact ⟨_, by rw [HybridSearchEngine.search, if_neg hq]⟩
  · intro h
    by_cases hq : isBlank query = true
    · rw [HybridSearchEngine.search, HybridSearchEngine.search, if_pos hq,
        if_pos hq]
    · rw [HybridSearchEngine.search, HybridSearchEngine.search, if_neg hq,
        if_neg hq]
      simp only [HybridSearchEngine.executeSearchPipeline, h,
        executeVectorSearch_error]
      norm_num
  · intro h
    by_cases hq : isBlank query = true
    · rw [HybridSearchEngine.search, if_pos hq]
    · rw [HybridSearchEngine.search, if_neg hq]
      simp only [HybridSearchEngine.executeSearchPipeline, h,
        executeVectorSearch_error]
      simp [show ¬ (("fts5" : String) = "vector") from by decide]

/-- C4 witness: the amended theorem at a concrete vector-only failing
configuration. -/
theorem claim4_embedding_failure_witness :
    ({ searchMethods := ["vector"] } :
      HybridSearchEngine.HybridSearchOptions).searchMethods = ["vector"] ∧
    HybridSearchEngine.search "build a chatbot"
      { searchMethods := ["vector"] } [] true (Except.error "boom") []
      60 1 1 false {} (Except.ok ()) (fun _ => Except.ok []) =
      Except.ok [] :=
  ⟨rfl,
    (claim4_embedding_failure "build a chatbot" { searchMethods := ["vector"] }
      [] true [] 60 1 1 false {} (Except.ok ()) (fun _ => Except.ok [])
      "boom").2.2 rfl⟩

/-! ### Claim 2: the needs-embedding query and staleness -/

/-- C2 counterexample: a stored record whose content hash H1 differs from
the hash H2 of the current searchable text is not reported when its
embedding columns are present and embedding_generated_at is not older than
updated_at - the SQL query never consults content hashes. -/
theorem claim2_counterexample :
    VectorRepository.nodeNeedsEmbedding
      (sampleNodeRow "A" (some [1]) (some "H1") (some 10) 10) = false ∧
    VectorRepository.getNodesNeedingEmbeddings
      [sampleNodeRow "A" (some [1]) (some "H1") (some 10) 10] = [] ∧
    (sampleNodeRow "A" (some [1]) (some "H1") (some 10) 10).embedding_content_hash =
      some "H1" ∧
    (fun _ : String => "H2")
      (EmbeddingService.prepareNodeContent "A" "" "" "" []) = "H2" ∧
    ¬ ("H1" : String) = "H2" := by
  refine ⟨rfl, rfl, rfl, rfl, by decide⟩

/-- C2 (amended): the needs-embedding queries select an entity exactly when
its embedding vector is NULL, its stored content hash is NULL, or
embedding_generated_at is older than updated_at; a content-hash mismatch by
itself does not cause selection, a hash match does not prevent selection,
and a saveEmbedding at a time not before updated_at removes the entity from
the selection.  (The hash comparison of the spec happens in the generation
script, which skips selected entities whose stored hash equals the
recomputed one.) -/
theorem claim2_staleness (r : NodeRow) (tr : TemplateRow) (emb : List ℚ)
    (newHash : String) (now : ℤ) :
    ((∃ v, r.embedding_vector = some v) →
      (∃ h1, r.embedding_content_hash = some h1) →
      (∃ g, r.embedding_generated_at = some g ∧ r.updated_at ≤ g) →
      VectorRepository.getNodesNeedingEmbeddings [r] = []) ∧
    ((∃ g, r.embedding_generated_at = some g ∧ g < r.updated_at) →
      VectorRepository.getNodesNeedingEmbeddings [r] =
        [{ node_type := r.node_type
           display_name := r.display_name
           description := r.description
           category := r.category
           documentation := r.documentation
           operations := r.operations
           current_hash := r.embedding_content_hash }]) ∧
    (r.updated_at ≤ now →
      VectorRepository.getNodesNeedingEmbeddings
        (VectorRepository.saveEmbedding [r] r.node_type emb newHash now) = []) ∧
    ((∃ v, tr.embedding_vector = some v) →
      (∃ h1, tr.embedding_content_hash = some h1) →
      (∃ g, tr.embedding_generated_at = some g ∧ tr.updated_at ≤ g) →
      VectorRepository.getTemplatesNeedingEmbeddings [tr] = []) ∧
    (tr.updated_at ≤ now →
      VectorRepository.getTemplatesNeedingEmbeddings
        (VectorRepository.saveTemplateEmbedding [tr] tr.id emb newHash now) =
        []) := by
  refine ⟨?_, ?_, ?_, ?_, ?_⟩
  · rintro ⟨v, hv⟩ ⟨h1, hh⟩ ⟨g, hg, hle⟩
    simp [VectorRepository.getNodesNeedingEmbeddings,
      VectorRepository.nodeNeedsEmbedding, hv, hh, hg,
      show ¬ (g < r.updated_at) from not_lt.2 hle]
  · rintro ⟨g, hg, hlt⟩
    simp [VectorRepository.getNodesNeedingEmbeddings,
      VectorRepository.nodeNeedsEmbedding, hg, hlt]
  · intro hle
    simp [VectorRepository.getNodesNeedingEmbeddings,
      VectorRepository.saveEmbedding, VectorRepository.nodeNeedsEmbedding,
      show ¬ (now < r.updated_at) from not_lt.2 hle]
  · rintro ⟨v, hv⟩ ⟨h1, hh⟩ ⟨g, hg, hle⟩
    simp [VectorRepository.getTemplatesNeedingEmbeddings,
      VectorRepository.templateNeedsEmbedding, hv, hh, hg,
      show ¬ (g < tr.updated_at) from not_lt.2 hle]
  · intro hle
    simp [VectorRepository.getTemplatesNeedingEmbeddings,
      VectorRepository.saveTemplateEmbedding,
      VectorRepository.templateNeedsEmbedding,
      show ¬ (now < tr.updated_at) from not_lt.2 hle]

/-- C2 witness: the amended theorem at a concrete up-to-date row whose
stored hash is arbitrary. -/
theorem claim2_staleness_witness :
    ((∃ v, (sampleNodeRow "A" (some [1]) (some "H1") (some 10) 10).embedding_vector =
        some v) ∧
      (∃ g, (sampleNodeRow "A" (some [1]) (some "H1") (some 10) 10).embedding_generated_at =
          some g ∧
        (sampleNodeRow "A" (some [1]) (some "H1") (some 10) 10).updated_at ≤ g)) ∧
    VectorRepository.getNodesNeedingEmbeddings
      [sampleNodeRow "A" (some [1]) (some "H1") (some 10) 10] = [] :=
  ⟨⟨⟨[1], rfl⟩, ⟨10, rfl, by decide⟩⟩,
    (claim2_staleness (sampleNodeRow "A" (some [1]) (some "H1") (some 10) 10)
      { id := 1
        workflow_id := 1
        name := "T"
        description := ""
        categories := []
        nodes_used := []
        views := 0
        updated_at := 0 } [] "H2" 0).1
      ⟨[1], rfl⟩ ⟨"H1", rfl⟩ ⟨10, rfl, by decide⟩⟩

/-! ### Claim 8: batching and order recovery of embedding generation -/

theorem createBatches_flatten (bs : ℕ) (hbs : 0 < bs) :
    ∀ texts : List String,
      (EmbeddingService.createBatches texts bs).flatten = texts := by
  have key : ∀ n (texts : List String), texts.length ≤ n →
      (EmbeddingService.createBatches texts bs).flatten = texts := by
    intro n
    induction n with
    | zero =>
      intro texts h
      have hnil : texts = [] := List.length_eq_zero.1 (Nat.le_zero.1 h)
      rw [hnil]
      rw [EmbeddingService.createBatches]
      simp
    | succ n ih =>
      intro texts h
      rw [EmbeddingService.createBatches]
      rw [if_neg (by omega : ¬ bs = 0)]
      by_cases he : texts.isEmpty = true
      · rw [if_pos he, List.isEmpty_iff.1 he]
        rfl
      · rw [if_neg he]
        rw [List.flatten_cons]
        have hlen : (texts.drop bs).length ≤ n := by
          rw [List.length_drop]
          have hne : texts.length ≠ 0 := by
            intro h0
            exact he (by rw [List.length_eq_zero.1 h0]; rfl)
          omega
        rw [ih (texts.drop bs) hlen]
        exact List.take_append_drop bs texts
  exact fun texts => key texts.length texts le_rfl

theorem createBatches_length (bs : ℕ) (hbs : 0 < bs) :
    ∀ texts : List String, ∀ b ∈ EmbeddingService.createBatches texts bs,
      b.length ≤ bs := by
  have key : ∀ n (texts : List String), texts.length ≤ n →
      ∀ b ∈ EmbeddingService.createBatches texts bs, b.length ≤ bs := by
    intro n
    induction n with
    | zero =>
      intro texts h b hb
      have hnil : texts = [] := List.length_eq_zero.1 (Nat.le_zero.1 h)
      rw [hnil, EmbeddingService.createBatches] at hb
      simp at hb
    | succ n ih =>
      intro texts h b hb
      rw [EmbeddingService.createBatches, if_neg (by omega : ¬ bs = 0)] at hb
      by_cases he : texts.isEmpty = true
      · rw [if_pos he] at hb
        cases hb
      · rw [if_neg he] at hb
        rcases List.mem_cons.1 hb with h1 | h1
        · rw [h1]
          exact List.length_take_le bs texts
        · have hlen : (texts.drop bs).length ≤ n := by
            rw [List.length_drop]
            have hne : texts.length ≠ 0 := by
              intro h0
              exact he (by rw [List.length_eq_zero.1 h0]; rfl)
            omega
          exact ih (texts.drop bs) hlen b h1
  exact fun texts => key texts.length texts le_rfl

theorem processBatch_of_perm (l : List (List ℚ))
    (data : List EmbeddingService.ResponseItem)
    (hperm : List.Perm data (l.enum.map (fun p => (p.2, p.1)))) :
    EmbeddingService.processBatch data = l := by
  unfold EmbeddingService.processBatch
  have hsortperm : List.Perm (data.mergeSort (fun p q => decide (p.2 ≤ q.2)))
      (l.enum.map (fun p => (p.2, p.1))) :=
    (List.mergeSort_perm data _).trans hperm
  have hsorted : (data.mergeSort (fun p q => decide (p.2 ≤ q.2))).Pairwise
      (fun p q => p.2 ≤ q.2) := by
    refine List.Pairwise.imp ?_ (List.sorted_mergeSort ?_ ?_ data)
    · exact fun h => of_decide_eq_true h
    · intro a b c h1 h2
      simp only [decide_eq_true_eq] at h1 h2 ⊢
      omega
    · intro a b
      rcases Nat.le_total a.2 b.2 with h | h <;> simp [h]
  have hmapsnd : List.Perm
      ((data.mergeSort (fun p q => decide (p.2 ≤ q.2))).map Prod.snd)
      (List.range l.length) := by
    have h1 := hsortperm.map Prod.snd
    have h2 : (l.enum.map (fun p : ℕ × List ℚ => (p.2, p.1))).map Prod.snd =
        List.range l.length := by
      rw [List.map_map]
      have hc : (Prod.snd ∘ fun p : ℕ × List ℚ => (p.2, p.1)) = Prod.fst := rfl
      rw [hc, List.enum_eq_enumFrom, List.enumFrom_map_fst,
        ← List.range_eq_range']
    rw [h2] at h1
    exact h1
  have hnd : ((data.mergeSort (fun p q => decide (p.2 ≤ q.2))).map
      Prod.snd).Nodup :=
    hmapsnd.nodup_iff.2 (List.nodup_range l.length)
  have hne : (data.mergeSort (fun p q => decide (p.2 ≤ q.2))).Pairwise
      (fun p q => ¬ p.2 = q.2) := List.pairwise_map.1 hnd
  have hstrict : (data.mergeSort (fun p q => decide (p.2 ≤ q.2))).Pairwise
      (fun p q => p.2 < q.2) :=
    (hsorted.and hne).imp (fun h => lt_of_le_of_ne h.1 h.2)
  have hexp : (l.enum.map (fun p : ℕ × List ℚ => (p.2, p.1))).Pairwise
      (fun p q => p.2 < q.2) := by
    rw [List.pairwise_map]
    have h2 : ((l.enum).map Prod.fst).Pairwise (· < ·) := by
      rw [List.enum_eq_enumFrom, List.enumFrom_map_fst, ← List.range_eq_range']
      exact List.pairwise_lt_range l.length
    exact List.pairwise_map.1 h2
  haveI hanti : IsAntisymm (List ℚ × ℕ) (fun p q => p.2 < q.2) :=
    ⟨fun a b h1 h2 => absurd h2 (Nat.lt_asymm h1)⟩
  have heq := List.eq_of_perm_of_sorted hsortperm hstrict hexp
  rw [heq, List.map_map]
  have hc2 : ((fun p : List ℚ × ℕ => p.1) ∘ fun p : ℕ × List ℚ => (p.2, p.1)) =
      Prod.snd := rfl
  rw [hc2, List.enum_eq_enumFrom, List.enumFrom_map_snd]

/-- C8: generateEmbeddings splits its input into consecutive batches of at
most the batch size, processes them in order, re-sorts each provider
response by the returned index, and yields exactly one vector per input
text in the original input order, even when the provider answers each
batch in permuted order. -/
theorem claim8_generateEmbeddings (texts : List String) (batchSize : ℕ)
    (f : String → List ℚ)
    (respond : List String → List EmbeddingService.ResponseItem)
    (hbs : 0 < batchSize)
    (hresp : ∀ b ∈ EmbeddingService.createBatches texts batchSize,
      List.Perm (respond b) (((b.map f).enum).map (fun p => (p.2, p.1)))) :
    EmbeddingService.generateEmbeddings respond texts batchSize =
      texts.map f ∧
    (∀ b ∈ EmbeddingService.createBatches texts batchSize,
      b.length ≤ batchSize) ∧
    (EmbeddingService.createBatches texts batchSize).flatten = texts := by
  refine ⟨?_, createBatches_length batchSize hbs texts,
    createBatches_flatten batchSize hbs texts⟩
  unfold EmbeddingService.generateEmbeddings
  have hmap : (EmbeddingService.createBatches texts batchSize).map
      (fun b => EmbeddingService.processBatch (respond b)) =
      (EmbeddingService.createBatches texts batchSize).map
        (fun b => b.map f) := by
    refine List.map_congr_left (fun b hb => ?_)
    exact processBatch_of_perm (b.map f) (respond b) (hresp b hb)
  rw [hmap, ← List.map_flatten, createBatches_flatten batchSize hbs texts]

/-- C8 witness: three texts in batches of two, the provider answering each
batch in reversed order. -/
theorem claim8_generateEmbeddings_witness :
    0 < 2 ∧
    EmbeddingService.generateEmbeddings
      (fun b => (((b.map (fun t => if t = "a" then [1] else
        if t = "b" then [2] else [3])).enum).map
          (fun p => (p.2, p.1))).reverse)
      ["a", "b", "c"] 2 =
      ["a", "b", "c"].map (fun t => if t = "a" then [1] else
        if t = "b" then [2] else ([3] : List ℚ)) :=
  ⟨by decide,
    (claim8_generateEmbeddings ["a", "b", "c"] 2
      (fun t => if t = "a" then [1] else if t = "b" then [2] else [3])
      (fun b => (((b.map (fun t => if t = "a" then [1] else
        if t = "b" then [2] else [3])).enum).map
          (fun p => (p.2, p.1))).reverse)
      (by decide)
      (fun b hb => List.reverse_perm _)).1⟩

end Axiom8

